import Mathlib

/-!
# some-battery: embedded-controller battery / adapter telemetry driver

A shallow embedding of `drivers/power/supply/some-battery.c`.

* C integers are `Int` / `Nat` with explicit reduction to the width of the C
  type at every conversion (`u8`, `u32`, `s32`, `u64`, `s64`); signed overflow
  wraps, as the kernel is built with `-fno-strict-overflow`.
* `unsigned long` is 64 bits wide (the driver targets an arm64 machine).
* The i2c adapter is an arbitrary deterministic function of the history of
  transfers (`Bus.device`); `Bus.log` records every transfer the driver issues,
  so "no register read was issued" is "the bus is unchanged".
* `jiffies` is read twice by `some_battery_update`; the two readings are
  arguments of the embedded function.  `HZ` is the kernel's tick rate.
* `msleep` and the mutex have no effect on the sequential state and appear
  only as comments at the place where the C calls them.
-/

namespace SomeBattery

/-! ## Machine integers -/

/-- Conversion to `u8`: the value modulo 2^8. -/
def u8 (x : Int) : Nat := (x % 256).toNat

/-- Conversion to `unsigned int`: the value modulo 2^32. -/
def u32 (x : Int) : Nat := (x % 4294967296).toNat

/-- Conversion to `int`: the two's-complement reading of the low 32 bits. -/
def s32 (x : Int) : Int := (x + 2147483648) % 4294967296 - 2147483648

/-- Conversion to `unsigned long`: the value modulo 2^64. -/
def u64 (x : Int) : Nat := (x % 18446744073709551616).toNat

/-- Conversion to `long`: the two's-complement reading of the low 64 bits. -/
def s64 (x : Int) : Int :=
  (x + 9223372036854775808) % 18446744073709551616 - 9223372036854775808

/-- The C expression `a * b` on two `int`s. -/
def int_mul (a b : Int) : Int := s32 (a * b)

/-- The C expression `a << k` on an `int` (bit pattern shifted, low 32 bits kept). -/
def int_shl (a : Int) (k : Nat) : Int := s32 (u32 a <<< k)

/-- The C expression `a | b` on two `int`s. -/
def int_or (a b : Int) : Int := s32 (u32 a ||| u32 b)

/-- The kernel macro `BIT(nr)`, that is `1UL << nr`. -/
def BIT (nr : Nat) : Nat := u64 (1 <<< nr : Nat)

/-- The C expression `val & BIT(nr)` for an `int val`, tested against zero. -/
def int_test_bit (val : Int) (nr : Nat) : Bool := decide (u64 val &&& BIT nr ≠ 0)

/-- The kernel helper `sign_extend32(value, index)` of `linux/bitops.h`:
`shift = 31 - index; return (s32)(value << shift) >> shift`. -/
def sign_extend32 (value : Nat) (index : Int) : Int :=
  let shift := u8 (31 - index)
  s32 (u32 (value <<< shift)) / (2 ^ shift : Int)

/-- The kernel macro `time_before(a, b)` of `linux/jiffies.h`:
`(long)((a) - (b)) < 0` on two `unsigned long`s. -/
def time_before (a b : Nat) : Bool := decide (s64 (u64 ((a : Int) - (b : Int))) < 0)

/-! ## Constants -/

def EINVAL : Int := 22
def ENODEV : Int := 19

def I2C_M_RD : Nat := 0x0001

/-- The cache window `SOME_CACHE_TIME`, ten seconds in ticks. -/
def SOME_CACHE_TIME (HZ : Nat) : Nat := 10 * HZ

def ADPT : Nat := 0xa3
def BAM0 : Nat := 0xc0
def BST0 : Nat := 0xc1
def BRC0 : Nat := 0xc2
def BRC1 : Nat := 0xc3
def BPV0 : Nat := 0xc6
def BPV1 : Nat := 0xc7
def BDV0 : Nat := 0xc8
def BDV1 : Nat := 0xc9
def BDC0 : Nat := 0xca
def BDC1 : Nat := 0xcb
def BFC0 : Nat := 0xcc
def BFC1 : Nat := 0xcd
def BAC0 : Nat := 0xd2
def BAC1 : Nat := 0xd3
def BFF0 : Nat := 0xd6
def BFF1 : Nat := 0xd7
def ORRF : Nat := 0xdb

def POWER_SUPPLY_STATUS_CHARGING : Int := 1
def POWER_SUPPLY_STATUS_DISCHARGING : Int := 2
def POWER_SUPPLY_STATUS_NOT_CHARGING : Int := 3
def POWER_SUPPLY_STATUS_FULL : Int := 4
def POWER_SUPPLY_TECHNOLOGY_LION : Int := 2

/-! ## Data model -/

/-- The driver state `struct some_battery` without the `client` pointer (passed
separately, it never changes) and the mutex. -/
structure some_battery where
  update_time : Nat
  adapter_online : Bool
  unit_ma : Bool
  basc : Int
  battery_present : Bool
  bat_status : Int
  design_capacity : Nat
  design_voltage : Nat
  full_charge_capacity : Nat
  capacity_now : Nat
  voltage_now : Nat
  rate_now : Int
deriving DecidableEq

/-- The fields of `struct i2c_client` the driver uses. -/
structure i2c_client where
  addr : Nat
  flags : Nat
deriving DecidableEq

/-- One message of a transfer, `struct i2c_msg`; `buf` is the content of the
buffer when the message is handed to the adapter. -/
structure i2c_msg where
  addr : Nat
  flags : Nat
  len : Nat
  buf : List Nat
deriving DecidableEq

/-- What one call of `i2c_transfer` gives back: its return value (a negative
errno or the number of messages executed) and the bytes the adapter stored in
the buffer of the read message. -/
structure i2c_result where
  ret : Int
  rd : List Nat

/-- The bus: the adapter and device behind it, as a function of the history of
transfers up to and including the current one, and that history. -/
structure Bus where
  device : List (List i2c_msg) → i2c_result
  log : List (List i2c_msg)

/-- The kernel call `i2c_transfer(adapter, msgs, num)`. -/
def i2c_transfer (bus : Bus) (msgs : List i2c_msg) : i2c_result × Bus :=
  let log := bus.log ++ [msgs]
  (bus.device log, { bus with log := log })

/-- The properties of `enum power_supply_property` that the two endpoints name;
every other enumerator is `OTHER`. -/
inductive power_supply_property where
  | STATUS
  | PRESENT
  | ONLINE
  | VOLTAGE_MIN_DESIGN
  | CHARGE_FULL_DESIGN
  | CHARGE_FULL
  | CHARGE_NOW
  | CURRENT_NOW
  | VOLTAGE_NOW
  | CAPACITY
  | TECHNOLOGY
  | MODEL_NAME
  | MANUFACTURER
  | SERIAL_NUMBER
  | OTHER (id : Nat)
deriving DecidableEq

/-- The out-parameter `union power_supply_propval`. -/
inductive power_supply_propval where
  | intval (i : Int)
  | strval (s : String)
deriving DecidableEq

/-! ## Transport -/

/-- The function `some_battery_read`: one request transfer, then the poll and
response transfer; the first byte of the response or a negative errno. -/
def some_battery_read (client : i2c_client) (bus : Bus) (arg0 : Nat) : Int × Bus :=
  let read_cmd : Nat := 1
  let ecr : List Nat := [0, 0, 0, 0, 0, 0]
  let req_data : List Nat := [0x2, 0xb0, u8 arg0, 0, 0, 0]
  let req : i2c_msg :=
    { addr := client.addr, flags := client.flags, len := 6, buf := req_data }
  let (r, bus) := i2c_transfer bus [req]
  if r.ret < 0 then
    (r.ret, bus)
  else
    let resp0 : i2c_msg :=
      { addr := client.addr, flags := client.flags, len := 1, buf := [read_cmd] }
    let resp1 : i2c_msg :=
      { addr := client.addr, flags := client.flags ||| I2C_M_RD, len := 6, buf := ecr }
    let (r, bus) := i2c_transfer bus [resp0, resp1]
    if r.ret ≠ 2 then
      (-EINVAL, bus)
    else
      -- the adapter has overwritten the start of the response buffer
      let ecr := (r.rd.take 6 ++ ecr.drop (r.rd.take 6).length).map (fun x => u8 x)
      ((ecr.headD 0 : Nat), bus)

def some_battery_present (battery : some_battery) : Bool :=
  battery.battery_present

/-! ## Refresh stages -/

/-- The function `some_battery_update_info`: the presence / identity stage. -/
def some_battery_update_info (client : i2c_client) (battery : some_battery) (bus : Bus) :
    Int × some_battery × Bus :=
  let (val, bus) := some_battery_read client bus 0xda
  if val < 0 then
    (val, battery, bus)
  else
    let battery := { battery with battery_present := int_test_bit val 0 }
    if !battery.battery_present then
      (0, battery, bus)
    else
      let (val, bus) := some_battery_read client bus BAM0
      if val < 0 then
        (val, battery, bus)
      else
        let battery := { battery with unit_ma := int_test_bit val 1 }
        let battery :=
          if !battery.unit_ma then { battery with basc := 10 }
          else { battery with basc := 1 }
        let (lsb, bus) := some_battery_read client bus BDC0
        let (msb, bus) := some_battery_read client bus BDC1
        if lsb < 0 ∨ msb < 0 then
          ((if lsb < 0 then lsb else msb), battery, bus)
        else
          let battery :=
            { battery with
              design_capacity := u32 (int_mul battery.basc (int_or (int_shl msb 8) lsb)) }
          -- msleep(50)
          let (lsb, bus) := some_battery_read client bus BDV0
          let (msb, bus) := some_battery_read client bus BDV1
          if lsb < 0 ∨ msb < 0 then
            ((if lsb < 0 then lsb else msb), battery, bus)
          else
            let battery :=
              { battery with design_voltage := u32 (int_or (int_shl msb 8) lsb) }
            -- msleep(50)
            let (orrf, bus) := some_battery_read client bus ORRF
            if orrf < 0 then
              (orrf, battery, bus)
            else
              let (lsb, msb, bus) :=
                if int_test_bit orrf 0 then
                  let (lsb, bus) := some_battery_read client bus BFF0
                  let (msb, bus) := some_battery_read client bus BFF1
                  (lsb, msb, bus)
                else
                  let (lsb, bus) := some_battery_read client bus BFC0
                  let (msb, bus) := some_battery_read client bus BFC1
                  (lsb, msb, bus)
              let battery :=
                { battery with
                  full_charge_capacity :=
                    u32 (int_mul (int_or (int_shl msb 8) lsb) battery.basc) }
              (0, battery, bus)

/-- The function `some_battery_update_status`: the dynamic-status stage. -/
def some_battery_update_status (client : i2c_client) (battery : some_battery) (bus : Bus) :
    Int × some_battery × Bus :=
  if !battery.battery_present then
    (0, battery, bus)
  else
    let (val, bus) := some_battery_read client bus BST0
    if val < 0 then
      (val, battery, bus)
    else
      let battery := { battery with bat_status := val }
      let (lsb, bus) := some_battery_read client bus BRC0
      let (msb, bus) := some_battery_read client bus BRC1
      if lsb < 0 ∨ msb < 0 then
        ((if lsb < 0 then lsb else msb), battery, bus)
      else
        let battery :=
          { battery with
            capacity_now := u32 (int_mul (int_or (int_shl msb 8) lsb) battery.basc) }
        let (lsb, bus) := some_battery_read client bus BPV0
        let (msb, bus) := some_battery_read client bus BPV1
        if lsb < 0 ∨ msb < 0 then
          ((if lsb < 0 then lsb else msb), battery, bus)
        else
          let battery := { battery with voltage_now := u32 (int_or (int_shl msb 8) lsb) }
          let (lsb, bus) := some_battery_read client bus BAC0
          let (msb, bus) := some_battery_read client bus BAC1
          let battery :=
            { battery with
              rate_now :=
                int_mul (sign_extend32 (u32 (int_or (int_shl msb 8) lsb)) 15) battery.basc }
          let battery :=
            if battery.unit_ma then
              -- `int * unsigned int / int`: the arithmetic is done in `unsigned int`
              { battery with
                rate_now :=
                  s32 ((u32 (u32 battery.rate_now * battery.voltage_now) / u32 1000 : Nat)) }
            else battery
          (0, battery, bus)

/-- The function `some_battery_update_adapter`: the adapter stage. -/
def some_battery_update_adapter (client : i2c_client) (battery : some_battery) (bus : Bus) :
    Int × some_battery × Bus :=
  let (val, bus) := some_battery_read client bus ADPT
  if val < 0 then
    (val, battery, bus)
  else
    let battery := { battery with adapter_online := int_test_bit val 7 }
    (0, battery, bus)

/-- The function `some_battery_update`; `jiffies0` is the value of `jiffies` at
the cache test, `jiffies1` its value when the time stamp is taken. -/
def some_battery_update (client : i2c_client) (HZ jiffies0 jiffies1 : Nat)
    (battery : some_battery) (bus : Bus) : Int × some_battery × Bus :=
  if battery.update_time ≠ 0 ∧
      time_before (u64 jiffies0) (u64 (battery.update_time + SOME_CACHE_TIME HZ)) then
    (0, battery, bus)
  else
    -- mutex_lock(&battery->lock)
    let (_, battery, bus) := some_battery_update_info client battery bus
    -- msleep(50)
    let (_, battery, bus) := some_battery_update_status client battery bus
    -- msleep(50)
    let (_, battery, bus) := some_battery_update_adapter client battery bus
    -- mutex_unlock(&battery->lock)
    let battery := { battery with update_time := u64 jiffies1 }
    (0, battery, bus)

/-! ## Derivation rules and the two endpoints -/

def some_battery_is_charged (battery : some_battery) : Bool :=
  if battery.bat_status ≠ 0 then
    false
  else if battery.full_charge_capacity = battery.capacity_now then
    true
  else if battery.design_capacity = battery.capacity_now then
    true
  else
    false

/-- The `switch (psp)` statement of `bat0_get_property`: the return code and the
content of `*val` afterwards. -/
def bat0_switch (battery : some_battery) (psp : power_supply_property)
    (val : power_supply_propval) : Int × power_supply_propval :=
  match psp with
  | .STATUS =>
    if int_test_bit battery.bat_status 0 then
      (0, .intval POWER_SUPPLY_STATUS_DISCHARGING)
    else if int_test_bit battery.bat_status 1 then
      (0, .intval POWER_SUPPLY_STATUS_CHARGING)
    else if some_battery_is_charged battery then
      (0, .intval POWER_SUPPLY_STATUS_FULL)
    else
      (0, .intval POWER_SUPPLY_STATUS_NOT_CHARGING)
  | .PRESENT => (0, .intval (if battery.battery_present then 1 else 0))
  | .VOLTAGE_MIN_DESIGN => (0, .intval (s32 battery.design_voltage))
  | .CHARGE_FULL_DESIGN => (0, .intval (s32 (u32 (battery.design_capacity * u32 100))))
  | .CHARGE_FULL => (0, .intval (s32 (u32 (battery.full_charge_capacity * u32 100))))
  | .CHARGE_NOW => (0, .intval (s32 (u32 (battery.capacity_now * u32 100))))
  | .CURRENT_NOW => (0, .intval (int_mul battery.rate_now 100))
  | .VOLTAGE_NOW => (0, .intval (s32 battery.voltage_now))
  | .CAPACITY =>
    if battery.full_charge_capacity ≠ 0 then
      (0, .intval (s32 ((u32 (battery.capacity_now * u32 100) / battery.full_charge_capacity
        : Nat))))
    else
      (0, .intval 0)
  | .TECHNOLOGY => (0, .intval POWER_SUPPLY_TECHNOLOGY_LION)
  | .MODEL_NAME => (0, .strval "PABAS0241231")
  | .MANUFACTURER => (0, .strval "Compal")
  | .SERIAL_NUMBER => (0, .strval "05072018")
  | _ => (-EINVAL, val)

/-- The function `bat0_get_property`, the battery endpoint: return code, `*val`,
driver state and bus afterwards. -/
def bat0_get_property (client : i2c_client) (HZ jiffies0 jiffies1 : Nat)
    (battery : some_battery) (bus : Bus) (psp : power_supply_property)
    (val : power_supply_propval) : Int × power_supply_propval × some_battery × Bus :=
  if some_battery_present battery then
    let (_, battery, bus) := some_battery_update client HZ jiffies0 jiffies1 battery bus
    let (rc, val) := bat0_switch battery psp val
    (rc, val, battery, bus)
  else if psp ≠ .PRESENT then
    (-ENODEV, val, battery, bus)
  else
    let (rc, val) := bat0_switch battery psp val
    (rc, val, battery, bus)

/-- The function `adp_get_property`, the adapter endpoint. -/
def adp_get_property (client : i2c_client) (HZ jiffies0 jiffies1 : Nat)
    (battery : some_battery) (bus : Bus) (psp : power_supply_property)
    (val : power_supply_propval) : Int × power_supply_propval × some_battery × Bus :=
  let (_, battery, bus) := some_battery_update client HZ jiffies0 jiffies1 battery bus
  match psp with
  | .ONLINE => (0, .intval (if battery.adapter_online then 1 else 0), battery, bus)
  | _ => (-EINVAL, val, battery, bus)

/-- The driver state `some_battery_probe` creates: zeroed by `devm_kzalloc`,
then `battery_present = true`. -/
def some_battery_probe : some_battery :=
  { update_time := 0, adapter_online := false, unit_ma := false, basc := 0,
    battery_present := true, bat_status := 0, design_capacity := 0, design_voltage := 0,
    full_charge_capacity := 0, capacity_now := 0, voltage_now := 0, rate_now := 0 }

/-! ## Reference notions used in the statements -/

/-- Two's-complement reading of a 16-bit value. -/
def signext16 (v : Nat) : Int :=
  if v % 65536 < 32768 then (v % 65536 : Nat) else (v % 65536 : Nat) - 65536

/-- A register file answering reads through the command protocol: the request
transfer always executes its one message, the response transfer its two and
returns the byte of the register named in the latest request, whose address is
the third byte of that request. -/
def regfile_device (regs : Nat → Nat) (log : List (List i2c_msg)) : i2c_result :=
  match log.reverse with
  | [_] :: _ => { ret := 1, rd := [] }
  | [_, _] :: [q] :: _ => { ret := 2, rd := [regs (q.buf.getD 2 0), 0, 0, 0, 0, 0] }
  | _ => { ret := -5, rd := [] }

/-- A bus with no transfer issued yet, in front of the register file `regs`. -/
def regfile_bus (regs : Nat → Nat) : Bus := { device := regfile_device regs, log := [] }

/-- An i2c client used in the concrete evaluations. -/
def client0 : i2c_client := { addr := 0x28, flags := 0 }

/-- Registers of a present battery reporting 20 units remaining of 10 units
full capacity (unit flag clear, so both are scaled by 10). -/
def regs_overfull (a : Nat) : Nat :=
  if a = 0xda then 1 else if a = BRC0 then 20 else if a = BFC0 then 10 else 0

/-- Registers of a present battery reporting 10 units remaining of 20 units
full capacity (unit flag clear). -/
def regs_half (a : Nat) : Nat :=
  if a = 0xda then 1 else if a = BRC0 then 10 else if a = BFC0 then 20 else 0

/-- Registers of a present battery reporting 201 units remaining of 200 units
full capacity (unit flag clear). -/
def regs_just_over (a : Nat) : Nat :=
  if a = 0xda then 1 else if a = BRC0 then 201 else if a = BFC0 then 200 else 0

/-- The number of ticks from the time stamp `last` to the reading `now` of
`jiffies`, counted on the wrapping 64-bit tick counter. -/
def ticks_since (now last : Nat) : Nat := u64 ((now : Int) - (last : Int))

/-- The bus after the driver has read the registers `addrs` one after the other. -/
def bus_after (client : i2c_client) (bus : Bus) (addrs : List Nat) : Bus :=
  addrs.foldl (fun b a => (some_battery_read client b a).2) bus

/-- An adapter that executes none of the messages of the request transfer
(returns 0) and both messages of every later transfer, storing 0x5a first. -/
def short_request_device (log : List (List i2c_msg)) : i2c_result :=
  match log with
  | [_] => { ret := 0, rd := [] }
  | _ => { ret := 2, rd := [0x5a, 0, 0, 0, 0, 0] }

/-- Registers of a battery at 8000 mV (BPV = 0x1f40) whose rate pair reads
0xfc18, that is -1000. -/
def regs_discharging (a : Nat) : Nat :=
  if a = BPV0 then 0x40 else if a = BPV1 then 0x1f
  else if a = BAC0 then 0x18 else if a = BAC1 then 0xfc else 0

/-- Registers whose rate pair reads 0xffff, that is -1, all others 0. -/
def regs_minus_one (a : Nat) : Nat :=
  if a = BAC0 then 0xff else if a = BAC1 then 0xff else 0

/-- The register addresses named by the request frames sent on the bus so far,
in the order sent (the third byte of each one-message transfer). -/
def reads_issued (bus : Bus) : List Nat :=
  bus.log.filterMap (fun msgs =>
    match msgs with
    | [req] => some (req.buf.getD 2 0)
    | _ => none)

/-- A register file in which every read of register `bad` fails: the request
transfer naming `bad` returns -5 (`-EIO`); all other reads are answered as by
`regfile_device`. -/
def faulty_regfile_device (regs : Nat → Nat) (bad : Nat) (log : List (List i2c_msg)) :
    i2c_result :=
  match log.reverse with
  | [q] :: _ => if q.buf.getD 2 0 = bad then { ret := -5, rd := [] } else { ret := 1, rd := [] }
  | [_, _] :: [q] :: _ => { ret := 2, rd := [regs (q.buf.getD 2 0), 0, 0, 0, 0, 0] }
  | _ => { ret := -5, rd := [] }

/-- A bus with no transfer issued yet, in front of `faulty_regfile_device`. -/
def faulty_regfile_bus (regs : Nat → Nat) (bad : Nat) : Bus :=
  { device := faulty_regfile_device regs bad, log := [] }

/-- Registers of a present battery with design capacity pair 0x0010 (unit flag
clear), all others 0. -/
def regs_design (a : Nat) : Nat :=
  if a = 0xda then 1 else if a = BDC0 then 0x10 else 0

/-- Registers of a present battery with the capacity-source flag set, the
alternate pair BFF reading 0x0102 and the default pair BFC reading 0x0304. -/
def regs_alternate (a : Nat) : Nat :=
  if a = 0xda then 1 else if a = ORRF then 1
  else if a = BFF0 then 2 else if a = BFF1 then 1
  else if a = BFC0 then 4 else if a = BFC1 then 3 else 0

/-- Registers with status byte 2, voltage pair 0x0040 and adapter byte 0x80,
all others 0. -/
def regs_charging (a : Nat) : Nat :=
  if a = BST0 then 2 else if a = BPV0 then 0x40 else if a = ADPT then 0x80 else 0

/-- The driver state after a sequence of calls of `some_battery_update`, each
with its own tick rate, readings of `jiffies` and bus. -/
def refresh_cycles (client : i2c_client) (battery : some_battery)
    (cycles : List (Nat × Nat × Nat × Bus)) : some_battery :=
  cycles.foldl
    (fun b c => (some_battery_update client c.1 c.2.1 c.2.2.1 b c.2.2.2).2.1) battery

/-- Every register read on this bus succeeds, whatever reads came before it. -/
def reads_succeed (client : i2c_client) (bus : Bus) : Prop :=
  ∀ (addrs : List Nat) (a : Nat), 0 ≤ (some_battery_read client (bus_after client bus addrs) a).1

/-- Bounds on the charge and rate fields under which their products with 100
fit an `int`: the three capacities are at most 10 * 65535, `rate_now` lies
between -10 * 32768 and 4294967, and `basc` is 0, 1 or 10. -/
def charge_fields_bounded (b : some_battery) : Prop :=
  b.design_capacity ≤ 655350 ∧ b.full_charge_capacity ≤ 655350 ∧ b.capacity_now ≤ 655350 ∧
    -327680 ≤ b.rate_now ∧ b.rate_now ≤ 4294967 ∧ (b.basc = 0 ∨ b.basc = 1 ∨ b.basc = 10)

/-! ## Arithmetic lemmas -/

theorem u32_natCast (n : Nat) : u32 (n : Int) = n % 4294967296 := by
  unfold u32; omega

theorem s32_of_lt (n : Nat) (h : n < 2147483648) : s32 (n : Int) = n := by
  unfold s32; omega

theorem and_two_pow_ne_zero (a n : Nat) : a &&& 2 ^ n ≠ 0 ↔ a / 2 ^ n % 2 = 1 := by
  have h : a.testBit n = decide (a / 2 ^ n % 2 = 1) := Nat.testBit_to_div_mod
  constructor
  · intro hne
    by_contra hc
    apply hne
    apply Nat.eq_of_testBit_eq
    intro i
    simp only [Nat.testBit_and, Nat.zero_testBit, Nat.testBit_two_pow]
    by_cases hi : n = i
    · subst hi; simp [h, hc]
    · simp [hi]
  · intro h1 h0
    have : (a &&& 2 ^ n).testBit n = true := by
      simp [Nat.testBit_and, Nat.testBit_two_pow_self, h, h1]
    rw [h0] at this
    simp at this

/-- Bit 0 of an `int`, as tested by `val & BIT(0)`, is its parity. -/
theorem int_test_bit_zero (x : Int) : int_test_bit x 0 = decide (x % 2 = 1) := by
  have hb : BIT 0 = 2 ^ 0 := by decide
  unfold int_test_bit
  rw [hb]
  apply decide_eq_decide.mpr
  rw [and_two_pow_ne_zero]
  unfold u64
  omega

/-- Bit 1 of an `int`, as tested by `val & BIT(1)`. -/
theorem int_test_bit_one (x : Int) : int_test_bit x 1 = decide (x / 2 % 2 = 1) := by
  have hb : BIT 1 = 2 ^ 1 := by decide
  unfold int_test_bit
  rw [hb]
  apply decide_eq_decide.mpr
  rw [and_two_pow_ne_zero]
  unfold u64
  omega

/-- Bit 7 of an `int`, as tested by `val & BIT(7)`. -/
theorem int_test_bit_seven (x : Int) : int_test_bit x 7 = decide (x / 128 % 2 = 1) := by
  have hb : BIT 7 = 2 ^ 7 := by decide
  unfold int_test_bit
  rw [hb]
  apply decide_eq_decide.mpr
  rw [and_two_pow_ne_zero]
  unfold u64
  omega

theorem u64_lt (x : Int) : u64 x < 18446744073709551616 := by
  unfold u64; omega

theorem s64_neg_iff (d : Nat) (hd : d < 18446744073709551616) :
    s64 (d : Int) < 0 ↔ 9223372036854775808 ≤ d := by
  unfold s64; omega

theorem u64_sub_u64 (now last w : Nat) :
    ((u64 ((u64 now : Int) - (u64 ((last : Int) + (w : Int)) : Int)) : Nat) : Int) =
      (((u64 ((now : Int) - (last : Int)) : Nat) : Int) - w) % 18446744073709551616 := by
  unfold u64
  omega

theorem u32_s32 (x : Int) : u32 (s32 x) = u32 x := by
  unfold u32 s32; omega

/-- Assembling two bytes with `(msb << 8) | lsb` in `int` arithmetic. -/
theorem assemble_bytes (lo hi : Nat) (hlo : lo ≤ 255) (hhi : hi ≤ 255) :
    int_or (int_shl (hi : Int) 8) (lo : Int) = ((hi <<< 8 ||| lo : Nat) : Int) ∧
      (hi <<< 8 ||| lo) < 65536 := by
  have h1 : hi <<< 8 < 2 ^ 16 := by rw [Nat.shiftLeft_eq]; omega
  have h2 : lo < 2 ^ 16 := by omega
  have h3 : hi <<< 8 ||| lo < 2 ^ 16 := Nat.or_lt_two_pow h1 h2
  have h4 : u32 (hi : Int) = hi := by rw [u32_natCast]; omega
  have h5 : u32 (lo : Int) = lo := by rw [u32_natCast]; omega
  have h6 : u32 (((hi <<< 8 : Nat)) : Int) = hi <<< 8 := by rw [u32_natCast]; omega
  refine ⟨?_, by omega⟩
  unfold int_or int_shl
  rw [h4, u32_s32, h6, h5, s32_of_lt _ (by omega)]

/-- The helper `sign_extend32(value, 15)` is the two's-complement reading of a
16-bit value. -/
theorem sign_extend32_15 (v : Nat) :
    sign_extend32 v 15 = signext16 v := by
  have hs : u8 (31 - 15) = 16 := by decide
  unfold sign_extend32 signext16
  simp only [hs]
  rw [Nat.shiftLeft_eq, u32_natCast]
  unfold s32
  norm_num
  split_ifs <;> omega

/-! ## Transport -/

/-- A read returns a negative errno or a byte. -/
theorem some_battery_read_range (client : i2c_client) (bus : Bus) (arg0 : Nat) :
    (some_battery_read client bus arg0).1 < 0 ∨
      (0 ≤ (some_battery_read client bus arg0).1 ∧ (some_battery_read client bus arg0).1 ≤ 255) := by
  have hu8 : ∀ x : Int, u8 x ≤ 255 := by intro x; unfold u8; omega
  unfold some_battery_read i2c_transfer
  dsimp only
  split_ifs with h1 h2
  · left; exact h1
  · left; show -EINVAL < 0; unfold EINVAL; omega
  · right
    generalize (bus.device ((bus.log ++ _) ++ _)).rd = rd
    rcases rd with _ | ⟨x, xs⟩
    · simp [hu8]
    · simp only [List.take_succ_cons, List.cons_append, List.map_cons, List.headD_cons]
      exact ⟨by positivity, by exact_mod_cast hu8 x⟩

/-- C10, where the code departs from it: the adapter reports 0 messages
executed for the request transfer (not the 1 expected) and 2 for the response
transfer; `some_battery_read` carries on after the request and returns the
response byte 0x5a as a success instead of a negative error. -/
theorem some_battery_read_accepts_short_request :
    (short_request_device
        [[{ addr := 0x28, flags := 0, len := 6, buf := [0x2, 0xb0, 0xc1, 0, 0, 0] }]]).ret = 0 ∧
    (some_battery_read client0 { device := short_request_device, log := [] } BST0).1 = 0x5a ∧
    (some_battery_read client0 { device := short_request_device, log := [] } BST0).2.log =
      [[{ addr := 0x28, flags := 0, len := 6, buf := [0x2, 0xb0, 0xc1, 0, 0, 0] }],
       [{ addr := 0x28, flags := 0, len := 1, buf := [1] },
        { addr := 0x28, flags := 1, len := 6, buf := [0, 0, 0, 0, 0, 0] }]] := by
  decide

/-- What `some_battery_read` does for every outcome of the two transfers: a
negative return of the request transfer is passed on; otherwise any return of
the response transfer other than 2 gives `-EINVAL`; otherwise the result is a
byte.  So it succeeds exactly when the request transfer returns a non-negative
value and the response transfer returns 2. -/
theorem some_battery_read_succeeds_iff (client : i2c_client) (bus : Bus) (arg0 : Nat) :
    0 ≤ (some_battery_read client bus arg0).1 ↔
      0 ≤ (i2c_transfer bus
            [{ addr := client.addr, flags := client.flags, len := 6,
               buf := [0x2, 0xb0, u8 arg0, 0, 0, 0] }]).1.ret ∧
        (i2c_transfer
            (i2c_transfer bus
              [{ addr := client.addr, flags := client.flags, len := 6,
                 buf := [0x2, 0xb0, u8 arg0, 0, 0, 0] }]).2
            [{ addr := client.addr, flags := client.flags, len := 1, buf := [1] },
             { addr := client.addr, flags := client.flags ||| I2C_M_RD, len := 6,
               buf := [0, 0, 0, 0, 0, 0] }]).1.ret = 2 := by
  unfold some_battery_read
  dsimp only
  split_ifs with h1 h2
  · constructor
    · intro h; omega
    · rintro ⟨h, _⟩; omega
  · constructor
    · intro h
      have : (-EINVAL : Int) < 0 := by unfold EINVAL; omega
      exact absurd h (by simpa using this)
    · rintro ⟨_, h⟩; exact absurd h h2
  · simp only [ne_eq, not_not] at h2
    constructor
    · intro _; exact ⟨by omega, h2⟩
    · intro _; exact Int.ofNat_nonneg _

/-! ## Dynamic-status stage -/

/-- The dynamic-status stage when the five checked reads succeed: what is stored,
in the terms of the C expressions. -/
theorem update_status_of_reads (client : i2c_client) (battery : some_battery) (bus : Bus)
    (st brc0 brc1 bpv0 bpv1 bac0 bac1 : Int) (w1 w2 w3 w4 w5 w6 w7 : Bus)
    (hp : battery.battery_present = true)
    (r0 : some_battery_read client bus BST0 = (st, w1))
    (r1 : some_battery_read client w1 BRC0 = (brc0, w2))
    (r2 : some_battery_read client w2 BRC1 = (brc1, w3))
    (r3 : some_battery_read client w3 BPV0 = (bpv0, w4))
    (r4 : some_battery_read client w4 BPV1 = (bpv1, w5))
    (r5 : some_battery_read client w5 BAC0 = (bac0, w6))
    (r6 : some_battery_read client w6 BAC1 = (bac1, w7))
    (h0 : 0 ≤ st) (h1 : 0 ≤ brc0) (h2 : 0 ≤ brc1) (h3 : 0 ≤ bpv0) (h4 : 0 ≤ bpv1) :
    some_battery_update_status client battery bus =
      (0,
       (if battery.unit_ma = true then
          { battery with
            bat_status := st
            capacity_now := u32 (int_mul (int_or (int_shl brc1 8) brc0) battery.basc)
            voltage_now := u32 (int_or (int_shl bpv1 8) bpv0)
            rate_now :=
              s32 ((u32
                (u32 (int_mul (sign_extend32 (u32 (int_or (int_shl bac1 8) bac0)) 15)
                    battery.basc) * u32 (int_or (int_shl bpv1 8) bpv0) : Nat) / u32 1000 : Nat)) }
        else
          { battery with
            bat_status := st
            capacity_now := u32 (int_mul (int_or (int_shl brc1 8) brc0) battery.basc)
            voltage_now := u32 (int_or (int_shl bpv1 8) bpv0)
            rate_now :=
              int_mul (sign_extend32 (u32 (int_or (int_shl bac1 8) bac0)) 15) battery.basc }),
       w7) := by
  unfold some_battery_update_status
  rw [if_neg (by simp [hp]), r0]
  dsimp only
  rw [if_neg (not_lt.mpr h0), r1]
  dsimp only
  rw [r2]
  dsimp only
  rw [if_neg (by omega), r3]
  dsimp only
  rw [r4]
  dsimp only
  rw [if_neg (by omega), r5]
  dsimp only
  rw [r6]
  dsimp only
  split_ifs <;> rfl

theorem signext16_range (v : Nat) : -32768 ≤ signext16 v ∧ signext16 v ≤ 32767 := by
  unfold signext16
  split_ifs <;> omega

/-- C5, where the code departs from it: with `unit_ma` set, scale 1, a rate
pair reading 0xfc18 (r = -1000) and a voltage pair reading 8000, the claim gives
`rate_now = (-1000 * 8000) / 1000 = -8000`; the stage stores 4286967, a positive
value, because `rate_now * voltage_now / 1000` mixes `int` and `unsigned int` and
is evaluated in `unsigned int`. -/
theorem update_status_rate_evaluated_unsigned :
    (some_battery_update_status client0 { some_battery_probe with unit_ma := true, basc := 1 }
        (regfile_bus regs_discharging)).1 = 0 ∧
    (some_battery_update_status client0 { some_battery_probe with unit_ma := true, basc := 1 }
        (regfile_bus regs_discharging)).2.1.voltage_now = 8000 ∧
    (some_battery_update_status client0 { some_battery_probe with unit_ma := true, basc := 1 }
        (regfile_bus regs_discharging)).2.1.rate_now = 4286967 ∧
    (1 : Int) * signext16 (0xfc <<< 8 ||| 0x18) = -1000 ∧
    ((-1000 : Int) * 8000) / 1000 = -8000 := by
  decide

/-- C6: with the battery present, `unit_ma` clear and scale factor `s`, when all
seven reads of the dynamic-status stage succeed with the bytes named, the stage
returns 0 and stores `bat_status = BST0`,
`capacity_now = s * ((BRC1 << 8) | BRC0)` converted to `unsigned int`,
`voltage_now = (BPV1 << 8) | BPV0` and
`rate_now = s * signext16((BAC1 << 8) | BAC0)` as an `int` product, leaving the
other fields alone.  The second part: for `0 ≤ s ≤ 65536`, which covers the
scale factors 1 and 10, neither conversion changes the value, so both products
are the products of the mathematical integers. -/
theorem update_status_stores_registers (client : i2c_client) (battery : some_battery)
    (bus : Bus) (s : Int) (st brc0 brc1 bpv0 bpv1 bac0 bac1 : Nat)
    (hp : battery.battery_present = true) (hu : battery.unit_ma = false)
    (hs : battery.basc = s)
    (h0 : (some_battery_read client bus BST0).1 = st)
    (h1 : (some_battery_read client (bus_after client bus [BST0]) BRC0).1 = brc0)
    (h2 : (some_battery_read client (bus_after client bus [BST0, BRC0]) BRC1).1 = brc1)
    (h3 : (some_battery_read client (bus_after client bus [BST0, BRC0, BRC1]) BPV0).1 = bpv0)
    (h4 : (some_battery_read client (bus_after client bus [BST0, BRC0, BRC1, BPV0]) BPV1).1
        = bpv1)
    (h5 : (some_battery_read client (bus_after client bus [BST0, BRC0, BRC1, BPV0, BPV1])
        BAC0).1 = bac0)
    (h6 : (some_battery_read client (bus_after client bus [BST0, BRC0, BRC1, BPV0, BPV1, BAC0])
        BAC1).1 = bac1) :
    some_battery_update_status client battery bus =
      (0,
       { battery with
         bat_status := st
         capacity_now := u32 (s * ((brc1 <<< 8 ||| brc0 : Nat) : Int))
         voltage_now := bpv1 <<< 8 ||| bpv0
         rate_now := s32 (s * signext16 (bac1 <<< 8 ||| bac0)) },
       bus_after client bus [BST0, BRC0, BRC1, BPV0, BPV1, BAC0, BAC1]) ∧
    (0 ≤ s → s ≤ 65536 →
      ((u32 (s * ((brc1 <<< 8 ||| brc0 : Nat) : Int)) : Nat) : Int) =
          s * ((brc1 <<< 8 ||| brc0 : Nat) : Int) ∧
        s32 (s * signext16 (bac1 <<< 8 ||| bac0)) = s * signext16 (bac1 <<< 8 ||| bac0)) := by
  have b0 := some_battery_read_range client bus BST0
  have b1 := some_battery_read_range client (bus_after client bus [BST0]) BRC0
  have b2 := some_battery_read_range client (bus_after client bus [BST0, BRC0]) BRC1
  have b3 := some_battery_read_range client (bus_after client bus [BST0, BRC0, BRC1]) BPV0
  have b4 := some_battery_read_range client (bus_after client bus [BST0, BRC0, BRC1, BPV0]) BPV1
  have b5 := some_battery_read_range client
    (bus_after client bus [BST0, BRC0, BRC1, BPV0, BPV1]) BAC0
  have b6 := some_battery_read_range client
    (bus_after client bus [BST0, BRC0, BRC1, BPV0, BPV1, BAC0]) BAC1
  rw [h0] at b0; rw [h1] at b1; rw [h2] at b2; rw [h3] at b3; rw [h4] at b4
  rw [h5] at b5; rw [h6] at b6
  have arc := assemble_bytes brc0 brc1 (by omega) (by omega)
  have apv := assemble_bytes bpv0 bpv1 (by omega) (by omega)
  have aac := assemble_bytes bac0 bac1 (by omega) (by omega)
  constructor
  · rw [update_status_of_reads client battery bus st brc0 brc1 bpv0 bpv1 bac0 bac1
      (bus_after client bus [BST0])
      (bus_after client bus [BST0, BRC0])
      (bus_after client bus [BST0, BRC0, BRC1])
      (bus_after client bus [BST0, BRC0, BRC1, BPV0])
      (bus_after client bus [BST0, BRC0, BRC1, BPV0, BPV1])
      (bus_after client bus [BST0, BRC0, BRC1, BPV0, BPV1, BAC0])
      (bus_after client bus [BST0, BRC0, BRC1, BPV0, BPV1, BAC0, BAC1])
      hp (Prod.ext h0 rfl) (Prod.ext h1 rfl) (Prod.ext h2 rfl) (Prod.ext h3 rfl)
      (Prod.ext h4 rfl) (Prod.ext h5 rfl) (Prod.ext h6 rfl)
      (by omega) (by omega) (by omega) (by omega) (by omega)]
    rw [if_neg (by simp [hu])]
    have e1 : u32 (int_mul (int_or (int_shl (brc1 : Int) 8) brc0) battery.basc) =
        u32 (s * ((brc1 <<< 8 ||| brc0 : Nat) : Int)) := by
      rw [arc.1, hs]; unfold int_mul; rw [u32_s32, mul_comm]
    have e2 : u32 (int_or (int_shl (bpv1 : Int) 8) bpv0) = bpv1 <<< 8 ||| bpv0 := by
      rw [apv.1, u32_natCast]; omega
    have e3 : int_mul (sign_extend32 (u32 (int_or (int_shl (bac1 : Int) 8) bac0)) 15)
        battery.basc = s32 (s * signext16 (bac1 <<< 8 ||| bac0)) := by
      have : u32 (((bac1 <<< 8 ||| bac0 : Nat)) : Int) = bac1 <<< 8 ||| bac0 := by
        rw [u32_natCast]; omega
      rw [aac.1, this, sign_extend32_15, hs]; unfold int_mul; rw [mul_comm]
    rw [e1, e2, e3]
  · intro hs0 hs1
    have hx : ((brc1 <<< 8 ||| brc0 : Nat) : Int) ≤ 65535 := by have := arc.2; omega
    have hx0 : (0 : Int) ≤ ((brc1 <<< 8 ||| brc0 : Nat) : Int) := Int.ofNat_nonneg _
    have hr := signext16_range (bac1 <<< 8 ||| bac0)
    have p1 : 0 ≤ s * ((brc1 <<< 8 ||| brc0 : Nat) : Int) := mul_nonneg hs0 hx0
    have p2 : s * ((brc1 <<< 8 ||| brc0 : Nat) : Int) ≤ 65536 * 65535 :=
      mul_le_mul hs1 hx hx0 (by norm_num)
    have p3 : s * (-32768) ≤ s * signext16 (bac1 <<< 8 ||| bac0) :=
      mul_le_mul_of_nonneg_left hr.1 hs0
    have p4 : s * signext16 (bac1 <<< 8 ||| bac0) ≤ s * 32767 :=
      mul_le_mul_of_nonneg_left hr.2 hs0
    constructor
    · unfold u32; omega
    · unfold s32; omega

/-- C6 at the example of the claim: rate pair 0xffff, scale factor 10, all other
registers 0; the stage stores `rate_now = -10`. -/
theorem update_status_stores_registers_witness :
    (some_battery_update_status client0 { some_battery_probe with basc := 10 }
        (regfile_bus regs_minus_one)).2.1.rate_now = -10 := by
  rw [(update_status_stores_registers client0 { some_battery_probe with basc := 10 }
    (regfile_bus regs_minus_one) 10 0 0 0 0 0 0xff 0xff rfl rfl rfl
    (by decide) (by decide) (by decide) (by decide) (by decide) (by decide) (by decide)).1]
  decide

/-! ## Derivation rules -/

/-- C1: the charging status the battery endpoint reports for
`POWER_SUPPLY_PROP_STATUS` is decided, on the state the cache refresh leaves, in
this order: Discharging if bit 0 of `bat_status` is set, whatever the other
fields are; otherwise Charging if bit 1 is set; otherwise Full if
`some_battery_is_charged` holds; otherwise NotCharging.  (With the battery
absent on entry the query is refused with `-ENODEV` and reports nothing.) -/
theorem bat0_status_decided_in_order (client : i2c_client) (HZ jiffies0 jiffies1 : Nat)
    (battery : some_battery) (bus : Bus) (val : power_supply_propval) :
    bat0_get_property client HZ jiffies0 jiffies1 battery bus .STATUS val =
      if battery.battery_present = true then
        (0,
         .intval
           (if (some_battery_update client HZ jiffies0 jiffies1 battery bus).2.1.bat_status % 2 = 1
            then POWER_SUPPLY_STATUS_DISCHARGING
            else if (some_battery_update client HZ jiffies0 jiffies1 battery bus).2.1.bat_status
                / 2 % 2 = 1
            then POWER_SUPPLY_STATUS_CHARGING
            else if some_battery_is_charged
                (some_battery_update client HZ jiffies0 jiffies1 battery bus).2.1 = true
            then POWER_SUPPLY_STATUS_FULL
            else POWER_SUPPLY_STATUS_NOT_CHARGING),
         (some_battery_update client HZ jiffies0 jiffies1 battery bus).2.1,
         (some_battery_update client HZ jiffies0 jiffies1 battery bus).2.2)
      else (-ENODEV, val, battery, bus) := by
  unfold bat0_get_property some_battery_present
  by_cases hp : battery.battery_present = true
  · simp only [hp, if_true]
    generalize (some_battery_update client HZ jiffies0 jiffies1 battery bus) = r
    obtain ⟨rc, b, w⟩ := r
    simp only [bat0_switch, int_test_bit_zero, int_test_bit_one, decide_eq_true_eq]
    split_ifs <;> rfl
  · simp [hp]

/-- C2: `some_battery_is_charged` holds exactly when `bat_status` is 0 and
`capacity_now` equals `full_charge_capacity` or `design_capacity`. -/
theorem is_charged_iff (battery : some_battery) :
    some_battery_is_charged battery = true ↔
      battery.bat_status = 0 ∧
        (battery.capacity_now = battery.full_charge_capacity ∨
          battery.capacity_now = battery.design_capacity) := by
  unfold some_battery_is_charged
  split_ifs with h0 h1 h2
  · simp [h0]
  · simp only [ne_eq, not_not] at h0
    simp [h0, h1]
  · simp only [ne_eq, not_not] at h0
    simp [h0, h2]
  · simp only [ne_eq, not_not] at h0
    constructor
    · intro h; cases h
    · rintro ⟨_, h | h⟩
      · exact absurd h.symm h1
      · exact absurd h.symm h2

/-- C3: the capacity percentage the battery endpoint reports for
`POWER_SUPPLY_PROP_CAPACITY` is, on the state the cache refresh leaves,
`capacity_now * 100 / full_charge_capacity` in `unsigned int` arithmetic when
`full_charge_capacity` is not 0 and exactly 0 when it is 0; the query returns 0
in both cases.  The second part: when `capacity_now * 100` fits the 32-bit
result, this is the quotient of the mathematical integers.  (With the battery
absent on entry the query is refused with `-ENODEV`.) -/
theorem bat0_capacity_percent (client : i2c_client) (HZ jiffies0 jiffies1 : Nat)
    (battery : some_battery) (bus : Bus) (val : power_supply_propval) :
    (bat0_get_property client HZ jiffies0 jiffies1 battery bus .CAPACITY val =
      if battery.battery_present = true then
        (0,
         .intval
           (if (some_battery_update client HZ jiffies0 jiffies1 battery bus).2.1.full_charge_capacity
                = 0
            then 0
            else s32 ((u32
              ((some_battery_update client HZ jiffies0 jiffies1 battery bus).2.1.capacity_now * 100)
              / (some_battery_update client HZ jiffies0 jiffies1 battery bus).2.1.full_charge_capacity
              : Nat))),
         (some_battery_update client HZ jiffies0 jiffies1 battery bus).2.1,
         (some_battery_update client HZ jiffies0 jiffies1 battery bus).2.2)
      else (-ENODEV, val, battery, bus)) ∧
    ((some_battery_update client HZ jiffies0 jiffies1 battery bus).2.1.capacity_now * 100
        < 2147483648 →
      s32 ((u32
          ((some_battery_update client HZ jiffies0 jiffies1 battery bus).2.1.capacity_now * 100)
          / (some_battery_update client HZ jiffies0 jiffies1 battery bus).2.1.full_charge_capacity
          : Nat)) =
        (((some_battery_update client HZ jiffies0 jiffies1 battery bus).2.1.capacity_now * 100
          / (some_battery_update client HZ jiffies0 jiffies1 battery bus).2.1.full_charge_capacity
          : Nat) : Int)) := by
  constructor
  · unfold bat0_get_property some_battery_present
    by_cases hp : battery.battery_present = true
    · simp only [hp, if_true]
      generalize (some_battery_update client HZ jiffies0 jiffies1 battery bus) = r
      obtain ⟨rc, b, w⟩ := r
      have h100 : u32 100 = 100 := by decide
      simp only [bat0_switch, h100]
      by_cases hz : b.full_charge_capacity = 0
      · simp [hz]
      · simp only [ne_eq, hz, not_false_eq_true, if_true, if_false]
        norm_cast
    · simp [hp]
  · generalize (some_battery_update client HZ jiffies0 jiffies1 battery bus) = r
    obtain ⟨rc, b, w⟩ := r
    dsimp only
    intro h
    have h1 : u32 ((b.capacity_now * 100 : Nat) : Int) = b.capacity_now * 100 := by
      rw [u32_natCast]; omega
    have h2 : b.capacity_now * 100 / b.full_charge_capacity < 2147483648 :=
      lt_of_le_of_lt (Nat.div_le_self _ _) h
    push_cast at h1
    rw [h1]
    exact s32_of_lt _ h2

/-- C3 after a refresh that stores `capacity_now = 100` and
`full_charge_capacity = 200`. -/
theorem bat0_capacity_percent_witness :
    (some_battery_update client0 250 1000 1030 some_battery_probe
        (regfile_bus regs_half)).2.1.capacity_now * 100 < 2147483648 ∧
    s32 ((u32
        ((some_battery_update client0 250 1000 1030 some_battery_probe
            (regfile_bus regs_half)).2.1.capacity_now * 100)
        / (some_battery_update client0 250 1000 1030 some_battery_probe
            (regfile_bus regs_half)).2.1.full_charge_capacity : Nat)) =
      (((some_battery_update client0 250 1000 1030 some_battery_probe
            (regfile_bus regs_half)).2.1.capacity_now * 100
        / (some_battery_update client0 250 1000 1030 some_battery_probe
            (regfile_bus regs_half)).2.1.full_charge_capacity : Nat) : Int) :=
  ⟨by decide,
   (bat0_capacity_percent client0 250 1000 1030 some_battery_probe (regfile_bus regs_half)
      (.intval 0)).2 (by decide)⟩

/-- C4, as stated, fails: after a refresh that stores `capacity_now = 200` and
`full_charge_capacity = 100` (registers BRC = 20, BFC = 10, scale 10) the
battery endpoint reports a capacity percentage of 200. -/
theorem bat0_capacity_percent_above_100 :
    (bat0_get_property client0 250 1000 1030 some_battery_probe (regfile_bus regs_overfull)
        .CAPACITY (.intval 0)).1 = 0 ∧
    (bat0_get_property client0 250 1000 1030 some_battery_probe (regfile_bus regs_overfull)
        .CAPACITY (.intval 0)).2.1 = .intval 200 ∧
    (bat0_get_property client0 250 1000 1030 some_battery_probe (regfile_bus regs_overfull)
        .CAPACITY (.intval 0)).2.2.1.capacity_now = 200 ∧
    (bat0_get_property client0 250 1000 1030 some_battery_probe (regfile_bus regs_overfull)
        .CAPACITY (.intval 0)).2.2.1.full_charge_capacity = 100 := by
  decide

/-- The quotient reported for `POWER_SUPPLY_PROP_CAPACITY` is above 100 when
`101 * full_charge_capacity ≤ capacity_now * 100`, the divisor is not 0 and the
product fits an `int`: the condition of the amended C4 cannot be widened. -/
theorem bat0_switch_capacity_above_100 (battery : some_battery) (val : power_supply_propval)
    (hz : battery.full_charge_capacity ≠ 0)
    (hfit : battery.capacity_now * 100 < 2147483648)
    (hgt : 101 * battery.full_charge_capacity ≤ battery.capacity_now * 100) :
    ∃ p : Int, bat0_switch battery .CAPACITY val = (0, .intval p) ∧ 100 < p := by
  have h100 : u32 100 = 100 := by decide
  have hu : u32 ((battery.capacity_now * 100 : Nat) : Int) = battery.capacity_now * 100 := by
    rw [u32_natCast]; omega
  have hq : 101 ≤ battery.capacity_now * 100 / battery.full_charge_capacity :=
    (Nat.le_div_iff_mul_le (Nat.pos_of_ne_zero hz)).mpr hgt
  have hq2 : battery.capacity_now * 100 / battery.full_charge_capacity < 2147483648 :=
    lt_of_le_of_lt (Nat.div_le_self _ _) hfit
  push_cast at hu
  refine ⟨((battery.capacity_now * 100 / battery.full_charge_capacity : Nat) : Int), ?_, ?_⟩
  · simp only [bat0_switch, h100, ne_eq, hz, not_false_eq_true, if_true, Nat.cast_ofNat]
    rw [hu, s32_of_lt _ hq2]
  · exact_mod_cast hq

/-- C4, amended: when the battery is present on entry and the state the cache
refresh leaves has `full_charge_capacity = 0` or
`capacity_now * 100 < 101 * full_charge_capacity` (so in particular whenever
`capacity_now ≤ full_charge_capacity`), the query for
`POWER_SUPPLY_PROP_CAPACITY` returns 0 and reports an integer in the range
0..100. -/
theorem bat0_capacity_percent_range (client : i2c_client) (HZ jiffies0 jiffies1 : Nat)
    (battery : some_battery) (bus : Bus) (val : power_supply_propval)
    (hp : battery.battery_present = true)
    (hle : (some_battery_update client HZ jiffies0 jiffies1 battery bus).2.1.full_charge_capacity
          = 0 ∨
        (some_battery_update client HZ jiffies0 jiffies1 battery bus).2.1.capacity_now * 100 <
          101 *
            (some_battery_update client HZ jiffies0 jiffies1 battery bus).2.1.full_charge_capacity) :
    ∃ p : Int,
      (bat0_get_property client HZ jiffies0 jiffies1 battery bus .CAPACITY val).1 = 0 ∧
      (bat0_get_property client HZ jiffies0 jiffies1 battery bus .CAPACITY val).2.1 = .intval p ∧
      0 ≤ p ∧ p ≤ 100 := by
  unfold bat0_get_property some_battery_present
  simp only [hp, if_true]
  generalize (some_battery_update client HZ jiffies0 jiffies1 battery bus) = r at hle ⊢
  obtain ⟨rc, b, w⟩ := r
  dsimp only at hle ⊢
  have h100 : u32 100 = 100 := by decide
  simp only [bat0_switch, h100]
  by_cases hz : b.full_charge_capacity = 0
  · exact ⟨0, by simp [hz], by simp [hz], le_refl _, by decide⟩
  · have hcap : b.capacity_now * 100 < b.full_charge_capacity * 101 := by
      rcases hle with h | h
      · exact absurd h hz
      · omega
    have hq : u32 ((b.capacity_now * 100 : Nat) : Int) / b.full_charge_capacity ≤ 100 := by
      rw [u32_natCast]
      have hlt : b.capacity_now * 100 % 4294967296 / b.full_charge_capacity < 101 :=
        Nat.div_lt_of_lt_mul (lt_of_le_of_lt (Nat.mod_le _ _) hcap)
      omega
    push_cast at hq
    simp only [ne_eq, hz, not_false_eq_true, if_true, Nat.cast_ofNat]
    refine ⟨((u32 ((b.capacity_now : Int) * 100) / b.full_charge_capacity : Nat) : Int),
      trivial, ?_, by positivity, by exact_mod_cast hq⟩
    rw [s32_of_lt _ (lt_of_le_of_lt hq (by decide))]

/-- C4, amended, after a refresh that stores `capacity_now = 2010` and
`full_charge_capacity = 2000`: more charge than the full capacity, reported as
100. -/
theorem bat0_capacity_percent_range_witness :
    (bat0_get_property client0 250 1000 1030 some_battery_probe (regfile_bus regs_just_over)
        .CAPACITY (.intval 0)).2.2.1.capacity_now = 2010 ∧
    (bat0_get_property client0 250 1000 1030 some_battery_probe (regfile_bus regs_just_over)
        .CAPACITY (.intval 0)).2.2.1.full_charge_capacity = 2000 ∧
    ∃ p : Int,
      (bat0_get_property client0 250 1000 1030 some_battery_probe (regfile_bus regs_just_over)
          .CAPACITY (.intval 0)).1 = 0 ∧
      (bat0_get_property client0 250 1000 1030 some_battery_probe (regfile_bus regs_just_over)
          .CAPACITY (.intval 0)).2.1 = .intval p ∧
      0 ≤ p ∧ p ≤ 100 :=
  ⟨by decide, by decide,
   bat0_capacity_percent_range client0 250 1000 1030 some_battery_probe
     (regfile_bus regs_just_over) (.intval 0) (by decide) (by decide)⟩

/-! ## Absent battery -/

/-- C7: with `battery_present` false, a query of the battery endpoint for any
property other than `POWER_SUPPLY_PROP_PRESENT` returns `-ENODEV`, issues no
transfer and leaves the driver state (its time stamp included) and `*val`
unchanged; the query for `POWER_SUPPLY_PROP_PRESENT` returns 0 with value 0
(false), again leaving state and bus unchanged. -/
theorem bat0_absent_battery (client : i2c_client) (HZ jiffies0 jiffies1 : Nat)
    (battery : some_battery) (bus : Bus) (psp : power_supply_property)
    (val : power_supply_propval) (hp : battery.battery_present = false) :
    (psp ≠ .PRESENT →
      bat0_get_property client HZ jiffies0 jiffies1 battery bus psp val =
        (-ENODEV, val, battery, bus)) ∧
    bat0_get_property client HZ jiffies0 jiffies1 battery bus .PRESENT val =
      (0, .intval 0, battery, bus) := by
  unfold bat0_get_property some_battery_present
  constructor
  · intro hne
    simp [hp, hne]
  · simp [hp, bat0_switch]

/-- C7 at an absent battery, for the charge and the presence property. -/
theorem bat0_absent_battery_witness :
    bat0_get_property client0 250 1000 1030 { some_battery_probe with battery_present := false }
        (regfile_bus regs_half) .CHARGE_NOW (.intval 7) =
        (-ENODEV, .intval 7, { some_battery_probe with battery_present := false },
          regfile_bus regs_half) ∧
    bat0_get_property client0 250 1000 1030 { some_battery_probe with battery_present := false }
        (regfile_bus regs_half) .PRESENT (.intval 7) =
        (0, .intval 0, { some_battery_probe with battery_present := false },
          regfile_bus regs_half) :=
  ⟨(bat0_absent_battery client0 250 1000 1030 { some_battery_probe with battery_present := false }
      (regfile_bus regs_half) .CHARGE_NOW (.intval 7) rfl).1 (by decide),
   (bat0_absent_battery client0 250 1000 1030 { some_battery_probe with battery_present := false }
      (regfile_bus regs_half) .CHARGE_NOW (.intval 7) rfl).2⟩

/-! ## Cache window -/

/-- The cache test of `some_battery_update` in terms of elapsed ticks: the
reading `now` is before `last + 10 * HZ` exactly when fewer than `10 * HZ` ticks
have passed since `last`, or `2^63 + 10 * HZ` or more (which the signed
comparison reads as a time stamp in the future). -/
theorem time_before_window (now last HZ : Nat) (hHZ : 10 * HZ < 2 ^ 63) :
    time_before (u64 now) (u64 (last + SOME_CACHE_TIME HZ)) = true ↔
      ticks_since now last < 10 * HZ ∨ 2 ^ 63 + 10 * HZ ≤ ticks_since now last := by
  unfold time_before ticks_since SOME_CACHE_TIME
  simp only [decide_eq_true_eq]
  rw [s64_neg_iff _ (u64_lt _)]
  have h := u64_sub_u64 now last (10 * HZ)
  have h2 := u64_lt ((now : Int) - (last : Int))
  generalize u64 ((now : Int) - (last : Int)) = e at h h2 ⊢
  push_cast at h ⊢
  generalize u64 ((u64 now : Int) - (u64 ((last : Int) + 10 * (HZ : Int)) : Int)) = d at h ⊢
  omega

/-- The state and bus a refresh cycle leaves: the three stages in order, then
the time stamp. -/
theorem some_battery_update_cases (client : i2c_client) (HZ jiffies0 jiffies1 : Nat)
    (battery : some_battery) (bus : Bus) :
    some_battery_update client HZ jiffies0 jiffies1 battery bus =
      if battery.update_time ≠ 0 ∧
          time_before (u64 jiffies0) (u64 (battery.update_time + SOME_CACHE_TIME HZ)) = true
      then (0, battery, bus)
      else
        (0,
         { (some_battery_update_adapter client
              (some_battery_update_status client
                (some_battery_update_info client battery bus).2.1
                (some_battery_update_info client battery bus).2.2).2.1
              (some_battery_update_status client
                (some_battery_update_info client battery bus).2.1
                (some_battery_update_info client battery bus).2.2).2.2).2.1 with
           update_time := u64 jiffies1 },
         (some_battery_update_adapter client
              (some_battery_update_status client
                (some_battery_update_info client battery bus).2.1
                (some_battery_update_info client battery bus).2.2).2.1
              (some_battery_update_status client
                (some_battery_update_info client battery bus).2.1
                (some_battery_update_info client battery bus).2.2).2.2).2.2) := by
  unfold some_battery_update
  split_ifs with h
  · rfl
  · rfl

/-- C8, as stated, fails at the tick value 0: a first call at tick 0 refreshes
(34 transfers, 17 register reads) and stamps `update_time = 0`, which is the
value that means "never refreshed"; a second call 5 ticks later, inside the
window of 2500 ticks, runs the whole refresh sequence again. -/
theorem some_battery_update_twice_at_tick_zero :
    (some_battery_update client0 250 0 0 some_battery_probe
        (regfile_bus regs_half)).2.1.update_time = 0 ∧
    (some_battery_update client0 250 0 0 some_battery_probe
        (regfile_bus regs_half)).2.2.log.length = 34 ∧
    ticks_since 5
        (some_battery_update client0 250 0 0 some_battery_probe
          (regfile_bus regs_half)).2.1.update_time < 10 * 250 ∧
    (some_battery_update client0 250 5 5
        (some_battery_update client0 250 0 0 some_battery_probe (regfile_bus regs_half)).2.1
        (some_battery_update client0 250 0 0 some_battery_probe
          (regfile_bus regs_half)).2.2).2.2.log.length = 68 := by
  decide

/-- C8, amended: when the time stamp taken by the first call (the reading
`stamp1` of `jiffies`) is not the tick value 0, a second call whose reading
`now2` of `jiffies` is fewer than `10 * HZ` ticks after the time stamp the first
call leaves returns 0, issues no transfer and leaves the driver state unchanged.
(`10 * HZ` is an `int` constant, so below 2^63.) -/
theorem some_battery_update_idempotent_in_window (client : i2c_client)
    (HZ now1 stamp1 now2 stamp2 : Nat) (battery : some_battery) (bus : Bus)
    (hHZ : 10 * HZ < 2 ^ 63)
    (hstamp : u64 stamp1 ≠ 0)
    (hwin : ticks_since now2
        (some_battery_update client HZ now1 stamp1 battery bus).2.1.update_time < 10 * HZ) :
    some_battery_update client HZ now2 stamp2
        (some_battery_update client HZ now1 stamp1 battery bus).2.1
        (some_battery_update client HZ now1 stamp1 battery bus).2.2 =
      (0, (some_battery_update client HZ now1 stamp1 battery bus).2.1,
        (some_battery_update client HZ now1 stamp1 battery bus).2.2) := by
  have hnz : (some_battery_update client HZ now1 stamp1 battery bus).2.1.update_time ≠ 0 := by
    rw [some_battery_update_cases]
    split_ifs with h
    · exact h.1
    · exact hstamp
  generalize (some_battery_update client HZ now1 stamp1 battery bus) = r at hwin hnz ⊢
  obtain ⟨rc, b, w⟩ := r
  dsimp only at hwin hnz ⊢
  rw [some_battery_update_cases, if_pos]
  exact ⟨hnz, (time_before_window now2 b.update_time HZ hHZ).mpr (Or.inl hwin)⟩

/-- C8, amended, at a first call stamped at tick 1030 and a second call at tick
1500, with 250 ticks per second. -/
theorem some_battery_update_idempotent_in_window_witness :
    some_battery_update client0 250 1500 1530
        (some_battery_update client0 250 1000 1030 some_battery_probe (regfile_bus regs_half)).2.1
        (some_battery_update client0 250 1000 1030 some_battery_probe
          (regfile_bus regs_half)).2.2 =
      (0,
        (some_battery_update client0 250 1000 1030 some_battery_probe (regfile_bus regs_half)).2.1,
        (some_battery_update client0 250 1000 1030 some_battery_probe
          (regfile_bus regs_half)).2.2) :=
  some_battery_update_idempotent_in_window client0 250 1000 1030 1500 1530 some_battery_probe
    (regfile_bus regs_half) (by norm_num) (by decide) (by decide)

/-- C9: `some_battery_update` runs a full refresh (the identity, dynamic-status
and adapter stages in this order, then the time stamp) if `update_time` is 0
(unset) or the reading `jiffies0` of `jiffies` is at least `10 * HZ` ticks past
`update_time`, and otherwise returns 0 with the driver state and the bus
unchanged.  Ticks are counted on the wrapping 64-bit counter, with the last
refresh fewer than 2^63 ticks back; `10 * HZ` is an `int` constant. -/
theorem some_battery_update_refresh_or_noop (client : i2c_client)
    (HZ jiffies0 jiffies1 : Nat) (battery : some_battery) (bus : Bus)
    (hHZ : 10 * HZ < 2 ^ 63)
    (hpast : ticks_since jiffies0 battery.update_time < 2 ^ 63) :
    some_battery_update client HZ jiffies0 jiffies1 battery bus =
      if battery.update_time = 0 ∨ 10 * HZ ≤ ticks_since jiffies0 battery.update_time then
        (0,
         { (some_battery_update_adapter client
              (some_battery_update_status client
                (some_battery_update_info client battery bus).2.1
                (some_battery_update_info client battery bus).2.2).2.1
              (some_battery_update_status client
                (some_battery_update_info client battery bus).2.1
                (some_battery_update_info client battery bus).2.2).2.2).2.1 with
           update_time := u64 jiffies1 },
         (some_battery_update_adapter client
              (some_battery_update_status client
                (some_battery_update_info client battery bus).2.1
                (some_battery_update_info client battery bus).2.2).2.1
              (some_battery_update_status client
                (some_battery_update_info client battery bus).2.1
                (some_battery_update_info client battery bus).2.2).2.2).2.2)
      else (0, battery, bus) := by
  rw [some_battery_update_cases]
  have hw := time_before_window jiffies0 battery.update_time HZ hHZ
  by_cases hc : battery.update_time = 0 ∨ 10 * HZ ≤ ticks_since jiffies0 battery.update_time
  · rw [if_pos hc, if_neg]
    rintro ⟨hnz, htb⟩
    rcases hw.mp htb with h | h
    · rcases hc with h0 | h1
      · exact hnz h0
      · omega
    · omega
  · rw [if_neg hc, if_pos]
    push_neg at hc
    exact ⟨hc.1, hw.mpr (Or.inl hc.2)⟩

/-- C9 at a never-refreshed state (a refresh of 34 transfers, stamped 1030) and
at a state refreshed 100 ticks before the call (no transfer). -/
theorem some_battery_update_refresh_or_noop_witness :
    (some_battery_update client0 250 1000 1030 some_battery_probe
        (regfile_bus regs_half)).2.1.update_time = 1030 ∧
    (some_battery_update client0 250 1000 1030 some_battery_probe
        (regfile_bus regs_half)).2.2.log.length = 34 ∧
    (some_battery_update client0 250 1000 1030 { some_battery_probe with update_time := 900 }
        (regfile_bus regs_half)).2.2.log.length = 0 := by
  rw [some_battery_update_refresh_or_noop client0 250 1000 1030 some_battery_probe
      (regfile_bus regs_half) (by norm_num) (by decide),
    some_battery_update_refresh_or_noop client0 250 1000 1030
      { some_battery_probe with update_time := 900 }
      (regfile_bus regs_half) (by norm_num) (by decide)]
  decide

/-! ## Identity stage -/

/-- A read sends exactly one request frame, naming the register. -/
theorem reads_issued_read (client : i2c_client) (bus : Bus) (arg0 : Nat) :
    reads_issued (some_battery_read client bus arg0).2 = reads_issued bus ++ [u8 arg0] := by
  unfold some_battery_read i2c_transfer reads_issued
  dsimp only
  split_ifs <;> simp [List.filterMap_append]

theorem reads_issued_bus_after (client : i2c_client) (addrs : List Nat) (bus : Bus) :
    reads_issued (bus_after client bus addrs) =
      reads_issued bus ++ addrs.map (fun a => u8 a) := by
  induction addrs generalizing bus with
  | nil => simp [bus_after]
  | cons a rest ih =>
    have h : bus_after client bus (a :: rest) =
        bus_after client (some_battery_read client bus a).2 rest := rfl
    rw [h, ih, reads_issued_read]
    simp

/-- The identity stage when the presence read reports the battery and the six
checked reads after it succeed: what is stored, in the terms of the C
expressions.  The two reads of the selected capacity pair are not checked by
the code and may have any outcome here. -/
theorem update_info_of_reads (client : i2c_client) (battery : some_battery) (bus : Bus)
    (pres bam bdc0 bdc1 bdv0 bdv1 orrf f0 f1 : Int) (w1 w2 w3 w4 w5 w6 w7 w8 w9 : Bus)
    (r0 : some_battery_read client bus 0xda = (pres, w1))
    (r1 : some_battery_read client w1 BAM0 = (bam, w2))
    (r2 : some_battery_read client w2 BDC0 = (bdc0, w3))
    (r3 : some_battery_read client w3 BDC1 = (bdc1, w4))
    (r4 : some_battery_read client w4 BDV0 = (bdv0, w5))
    (r5 : some_battery_read client w5 BDV1 = (bdv1, w6))
    (r6 : some_battery_read client w6 ORRF = (orrf, w7))
    (r7 : some_battery_read client w7 (if int_test_bit orrf 0 = true then BFF0 else BFC0)
        = (f0, w8))
    (r8 : some_battery_read client w8 (if int_test_bit orrf 0 = true then BFF1 else BFC1)
        = (f1, w9))
    (h0 : 0 ≤ pres) (hb : int_test_bit pres 0 = true) (h1 : 0 ≤ bam)
    (h2 : 0 ≤ bdc0) (h3 : 0 ≤ bdc1) (h4 : 0 ≤ bdv0) (h5 : 0 ≤ bdv1) (h6 : 0 ≤ orrf) :
    some_battery_update_info client battery bus =
      (0,
       { battery with
         battery_present := true
         unit_ma := int_test_bit bam 1
         basc := if int_test_bit bam 1 = true then 1 else 10
         design_capacity :=
           u32 (int_mul (if int_test_bit bam 1 = true then 1 else 10)
             (int_or (int_shl bdc1 8) bdc0))
         design_voltage := u32 (int_or (int_shl bdv1 8) bdv0)
         full_charge_capacity :=
           u32 (int_mul (int_or (int_shl f1 8) f0)
             (if int_test_bit bam 1 = true then 1 else 10)) },
       w9) := by
  unfold some_battery_update_info
  rw [r0]
  dsimp only
  rw [if_neg (not_lt.mpr h0), if_neg (by simp [hb]), r1]
  dsimp only
  rw [if_neg (not_lt.mpr h1)]
  by_cases hu : int_test_bit bam 1 = true
  · simp only [hu, Bool.not_true, Bool.false_eq_true, if_false, if_true]
    rw [r2]
    dsimp only
    rw [r3]
    dsimp only
    rw [if_neg (by omega), r4]
    dsimp only
    rw [r5]
    dsimp only
    rw [if_neg (by omega), r6]
    dsimp only
    rw [if_neg (not_lt.mpr h6)]
    by_cases ho : int_test_bit orrf 0 = true
    · simp only [ho, if_true] at r7 r8 ⊢
      rw [r7]
      dsimp only
      rw [r8, hb]
    · simp only [ho, Bool.false_eq_true, if_false] at r7 r8 ⊢
      rw [r7]
      dsimp only
      rw [r8, hb]
  · simp only [hu, Bool.not_false, Bool.false_eq_true, if_true, if_false]
    rw [r2]
    dsimp only
    rw [r3]
    dsimp only
    rw [if_neg (by omega), r4]
    dsimp only
    rw [r5]
    dsimp only
    rw [if_neg (by omega), r6]
    dsimp only
    rw [if_neg (not_lt.mpr h6)]
    by_cases ho : int_test_bit orrf 0 = true
    · simp only [ho, if_true] at r7 r8 ⊢
      rw [r7]
      dsimp only
      rw [r8, hb]
    · simp only [ho, Bool.false_eq_true, if_false] at r7 r8 ⊢
      rw [r7]
      dsimp only
      rw [r8, hb]

theorem int_test_bit_zero_natCast (n : Nat) : int_test_bit (n : Int) 0 = true ↔ n % 2 = 1 := by
  rw [int_test_bit_zero, decide_eq_true_eq]; omega

theorem int_test_bit_one_natCast (n : Nat) :
    int_test_bit (n : Int) 1 = decide (n / 2 % 2 = 1) := by
  rw [int_test_bit_one]; apply decide_eq_decide.mpr; omega

/-- Scaling an assembled 16-bit value by the scale factor 1 or 10 in `int`
arithmetic and storing it in an `unsigned int` loses nothing. -/
theorem u32_scale (c : Prop) [Decidable c] (x : Nat) (hx : x < 65536) :
    u32 (int_mul (if c then (1 : Int) else 10) (x : Int)) = (if c then (1 : Nat) else 10) * x ∧
      u32 (int_mul (x : Int) (if c then (1 : Int) else 10)) =
        (if c then (1 : Nat) else 10) * x := by
  unfold int_mul
  rw [u32_s32, u32_s32]
  by_cases hc : c
  · simp only [hc, if_true, one_mul, mul_one]
    rw [u32_natCast]
    omega
  · simp only [hc, if_false]
    have e1 : (10 * (x : Int)) = ((10 * x : Nat) : Int) := by push_cast; ring
    have e2 : ((x : Int) * 10) = ((10 * x : Nat) : Int) := by push_cast; ring
    rw [e1, e2, u32_natCast]
    omega

/-- The identity stage when the presence read reports the battery and all reads
after it succeed with the bytes named: the whole result.  The capacity pair read
is BFF when bit 0 of the ORRF byte is set and BFC when it is clear. -/
theorem update_info_stores (client : i2c_client) (battery : some_battery) (bus : Bus)
    (pres bam bdc0 bdc1 bdv0 bdv1 orrf f0 f1 : Nat)
    (h0 : (some_battery_read client bus 0xda).1 = pres) (hbit : pres % 2 = 1)
    (h1 : (some_battery_read client (bus_after client bus [0xda]) BAM0).1 = bam)
    (h2 : (some_battery_read client (bus_after client bus [0xda, BAM0]) BDC0).1 = bdc0)
    (h3 : (some_battery_read client (bus_after client bus [0xda, BAM0, BDC0]) BDC1).1 = bdc1)
    (h4 : (some_battery_read client (bus_after client bus [0xda, BAM0, BDC0, BDC1]) BDV0).1
        = bdv0)
    (h5 : (some_battery_read client (bus_after client bus [0xda, BAM0, BDC0, BDC1, BDV0])
        BDV1).1 = bdv1)
    (h6 : (some_battery_read client (bus_after client bus [0xda, BAM0, BDC0, BDC1, BDV0, BDV1])
        ORRF).1 = orrf)
    (h7 : (some_battery_read client
        (bus_after client bus [0xda, BAM0, BDC0, BDC1, BDV0, BDV1, ORRF])
        (if orrf % 2 = 1 then BFF0 else BFC0)).1 = f0)
    (h8 : (some_battery_read client
        (bus_after client bus [0xda, BAM0, BDC0, BDC1, BDV0, BDV1, ORRF,
          if orrf % 2 = 1 then BFF0 else BFC0])
        (if orrf % 2 = 1 then BFF1 else BFC1)).1 = f1) :
    some_battery_update_info client battery bus =
      (0,
       { battery with
         battery_present := true
         unit_ma := decide (bam / 2 % 2 = 1)
         basc := if bam / 2 % 2 = 1 then 1 else 10
         design_capacity := (if bam / 2 % 2 = 1 then 1 else 10) * (bdc1 <<< 8 ||| bdc0)
         design_voltage := bdv1 <<< 8 ||| bdv0
         full_charge_capacity := (if bam / 2 % 2 = 1 then 1 else 10) * (f1 <<< 8 ||| f0) },
       bus_after client bus [0xda, BAM0, BDC0, BDC1, BDV0, BDV1, ORRF,
         if orrf % 2 = 1 then BFF0 else BFC0, if orrf % 2 = 1 then BFF1 else BFC1]) := by
  have b2 := some_battery_read_range client (bus_after client bus [0xda, BAM0]) BDC0
  have b3 := some_battery_read_range client (bus_after client bus [0xda, BAM0, BDC0]) BDC1
  have b4 := some_battery_read_range client (bus_after client bus [0xda, BAM0, BDC0, BDC1]) BDV0
  have b5 := some_battery_read_range client
    (bus_after client bus [0xda, BAM0, BDC0, BDC1, BDV0]) BDV1
  have b7 := some_battery_read_range client
    (bus_after client bus [0xda, BAM0, BDC0, BDC1, BDV0, BDV1, ORRF])
    (if orrf % 2 = 1 then BFF0 else BFC0)
  have b8 := some_battery_read_range client
    (bus_after client bus [0xda, BAM0, BDC0, BDC1, BDV0, BDV1, ORRF,
      if orrf % 2 = 1 then BFF0 else BFC0])
    (if orrf % 2 = 1 then BFF1 else BFC1)
  rw [h2] at b2; rw [h3] at b3; rw [h4] at b4; rw [h5] at b5; rw [h7] at b7; rw [h8] at b8
  have adc := assemble_bytes bdc0 bdc1 (by omega) (by omega)
  have adv := assemble_bytes bdv0 bdv1 (by omega) (by omega)
  have aff := assemble_bytes f0 f1 (by omega) (by omega)
  have hsel0 : (if int_test_bit (orrf : Int) 0 = true then BFF0 else BFC0) =
      (if orrf % 2 = 1 then BFF0 else BFC0) := by
    simp only [int_test_bit_zero_natCast]
  have hsel1 : (if int_test_bit (orrf : Int) 0 = true then BFF1 else BFC1) =
      (if orrf % 2 = 1 then BFF1 else BFC1) := by
    simp only [int_test_bit_zero_natCast]
  rw [update_info_of_reads client battery bus pres bam bdc0 bdc1 bdv0 bdv1 orrf f0 f1
    (bus_after client bus [0xda])
    (bus_after client bus [0xda, BAM0])
    (bus_after client bus [0xda, BAM0, BDC0])
    (bus_after client bus [0xda, BAM0, BDC0, BDC1])
    (bus_after client bus [0xda, BAM0, BDC0, BDC1, BDV0])
    (bus_after client bus [0xda, BAM0, BDC0, BDC1, BDV0, BDV1])
    (bus_after client bus [0xda, BAM0, BDC0, BDC1, BDV0, BDV1, ORRF])
    (bus_after client bus [0xda, BAM0, BDC0, BDC1, BDV0, BDV1, ORRF,
      if orrf % 2 = 1 then BFF0 else BFC0])
    (bus_after client bus [0xda, BAM0, BDC0, BDC1, BDV0, BDV1, ORRF,
      if orrf % 2 = 1 then BFF0 else BFC0, if orrf % 2 = 1 then BFF1 else BFC1])
    (Prod.ext h0 rfl) (Prod.ext h1 rfl) (Prod.ext h2 rfl) (Prod.ext h3 rfl)
    (Prod.ext h4 rfl) (Prod.ext h5 rfl) (Prod.ext h6 rfl)
    (by rw [hsel0]; exact Prod.ext h7 rfl) (by rw [hsel1]; exact Prod.ext h8 rfl)
    (Int.ofNat_nonneg _) ((int_test_bit_zero_natCast pres).mpr hbit) (Int.ofNat_nonneg _)
    (Int.ofNat_nonneg _) (Int.ofNat_nonneg _) (Int.ofNat_nonneg _) (Int.ofNat_nonneg _)
    (Int.ofNat_nonneg _)]
  have e2 : u32 (int_or (int_shl (bdv1 : Int) 8) bdv0) = bdv1 <<< 8 ||| bdv0 := by
    rw [adv.1, u32_natCast]; omega
  rw [int_test_bit_one_natCast, adc.1, aff.1, e2]
  simp only [decide_eq_true_eq]
  rw [(u32_scale (bam / 2 % 2 = 1) _ adc.2).1, (u32_scale (bam / 2 % 2 = 1) _ aff.2).2]

/-- C11: when the presence read (register 0xda) succeeds with bit 0 set and all
later reads of the identity stage succeed with the bytes named, the stage
returns 0 and stores `battery_present = true`, `unit_ma` = bit 1 of the BAM0
byte, `basc` = 1 if that bit is set and 10 if it is clear,
`design_capacity = basc * ((BDC1 << 8) | BDC0)` as mathematical integers and
`design_voltage = (BDV1 << 8) | BDV0`. -/
theorem update_info_stores_identity (client : i2c_client) (battery : some_battery) (bus : Bus)
    (pres bam bdc0 bdc1 bdv0 bdv1 orrf f0 f1 : Nat)
    (h0 : (some_battery_read client bus 0xda).1 = pres) (hbit : pres % 2 = 1)
    (h1 : (some_battery_read client (bus_after client bus [0xda]) BAM0).1 = bam)
    (h2 : (some_battery_read client (bus_after client bus [0xda, BAM0]) BDC0).1 = bdc0)
    (h3 : (some_battery_read client (bus_after client bus [0xda, BAM0, BDC0]) BDC1).1 = bdc1)
    (h4 : (some_battery_read client (bus_after client bus [0xda, BAM0, BDC0, BDC1]) BDV0).1
        = bdv0)
    (h5 : (some_battery_read client (bus_after client bus [0xda, BAM0, BDC0, BDC1, BDV0])
        BDV1).1 = bdv1)
    (h6 : (some_battery_read client (bus_after client bus [0xda, BAM0, BDC0, BDC1, BDV0, BDV1])
        ORRF).1 = orrf)
    (h7 : (some_battery_read client
        (bus_after client bus [0xda, BAM0, BDC0, BDC1, BDV0, BDV1, ORRF])
        (if orrf % 2 = 1 then BFF0 else BFC0)).1 = f0)
    (h8 : (some_battery_read client
        (bus_after client bus [0xda, BAM0, BDC0, BDC1, BDV0, BDV1, ORRF,
          if orrf % 2 = 1 then BFF0 else BFC0])
        (if orrf % 2 = 1 then BFF1 else BFC1)).1 = f1) :
    (some_battery_update_info client battery bus).1 = 0 ∧
    (some_battery_update_info client battery bus).2.1.battery_present = true ∧
    (some_battery_update_info client battery bus).2.1.unit_ma = decide (bam / 2 % 2 = 1) ∧
    (some_battery_update_info client battery bus).2.1.basc =
      (if bam / 2 % 2 = 1 then 1 else 10) ∧
    ((some_battery_update_info client battery bus).2.1.design_capacity : Int) =
      (some_battery_update_info client battery bus).2.1.basc *
        ((bdc1 <<< 8 ||| bdc0 : Nat) : Int) ∧
    (some_battery_update_info client battery bus).2.1.design_voltage = bdv1 <<< 8 ||| bdv0 := by
  rw [update_info_stores client battery bus pres bam bdc0 bdc1 bdv0 bdv1 orrf f0 f1
    h0 hbit h1 h2 h3 h4 h5 h6 h7 h8]
  refine ⟨rfl, rfl, rfl, rfl, ?_, rfl⟩
  dsimp only
  split_ifs <;> push_cast <;> rfl

/-- C11 at the example of the claim: BDC0 = 0x10, BDC1 = 0, unit flag clear;
the stage stores `design_capacity = 160`. -/
theorem update_info_stores_identity_witness :
    (some_battery_update_info client0 some_battery_probe (regfile_bus regs_design)).1 = 0 ∧
    (some_battery_update_info client0 some_battery_probe (regfile_bus regs_design)).2.1.basc
      = 10 ∧
    (some_battery_update_info client0 some_battery_probe
      (regfile_bus regs_design)).2.1.design_capacity = 160 := by
  have h := update_info_stores_identity client0 some_battery_probe (regfile_bus regs_design)
    1 0 0x10 0 0 0 0 0 0 (by decide) (by decide) (by decide) (by decide) (by decide)
    (by decide) (by decide) (by decide) (by decide) (by decide)
  refine ⟨h.1, h.2.2.2.1, ?_⟩
  have h5 := h.2.2.2.2.1
  rw [h.2.2.2.1] at h5
  exact_mod_cast h5

/-- C15: when the identity stage reaches the read of the capacity-source flag
(register ORRF) and that read and the two pair reads after it succeed,
`full_charge_capacity = basc * ((F1 << 8) | F0)` as mathematical integers, where
`F0`, `F1` are the bytes read from BFF0, BFF1 when bit 0 of the ORRF byte is set
and from BFC0, BFC1 when it is clear; the stage sends request frames for the
seven registers before the pair and for the selected pair only, so the pair
that was not selected is not read. -/
theorem update_info_selects_capacity_pair (client : i2c_client) (battery : some_battery)
    (bus : Bus)
    (pres bam bdc0 bdc1 bdv0 bdv1 orrf f0 f1 : Nat)
    (h0 : (some_battery_read client bus 0xda).1 = pres) (hbit : pres % 2 = 1)
    (h1 : (some_battery_read client (bus_after client bus [0xda]) BAM0).1 = bam)
    (h2 : (some_battery_read client (bus_after client bus [0xda, BAM0]) BDC0).1 = bdc0)
    (h3 : (some_battery_read client (bus_after client bus [0xda, BAM0, BDC0]) BDC1).1 = bdc1)
    (h4 : (some_battery_read client (bus_after client bus [0xda, BAM0, BDC0, BDC1]) BDV0).1
        = bdv0)
    (h5 : (some_battery_read client (bus_after client bus [0xda, BAM0, BDC0, BDC1, BDV0])
        BDV1).1 = bdv1)
    (h6 : (some_battery_read client (bus_after client bus [0xda, BAM0, BDC0, BDC1, BDV0, BDV1])
        ORRF).1 = orrf)
    (h7 : (some_battery_read client
        (bus_after client bus [0xda, BAM0, BDC0, BDC1, BDV0, BDV1, ORRF])
        (if orrf % 2 = 1 then BFF0 else BFC0)).1 = f0)
    (h8 : (some_battery_read client
        (bus_after client bus [0xda, BAM0, BDC0, BDC1, BDV0, BDV1, ORRF,
          if orrf % 2 = 1 then BFF0 else BFC0])
        (if orrf % 2 = 1 then BFF1 else BFC1)).1 = f1) :
    ((some_battery_update_info client battery bus).2.1.full_charge_capacity : Int) =
      (some_battery_update_info client battery bus).2.1.basc *
        ((f1 <<< 8 ||| f0 : Nat) : Int) ∧
    reads_issued (some_battery_update_info client battery bus).2.2 =
      reads_issued bus ++
        (if orrf % 2 = 1 then [0xda, 0xc0, 0xca, 0xcb, 0xc8, 0xc9, 0xdb, 0xd6, 0xd7]
         else [0xda, 0xc0, 0xca, 0xcb, 0xc8, 0xc9, 0xdb, 0xcc, 0xcd]) := by
  rw [update_info_stores client battery bus pres bam bdc0 bdc1 bdv0 bdv1 orrf f0 f1
    h0 hbit h1 h2 h3 h4 h5 h6 h7 h8]
  constructor
  · dsimp only
    split_ifs <;> push_cast <;> rfl
  · dsimp only
    rw [reads_issued_bus_after]
    congr 1
    by_cases ho : orrf % 2 = 1
    · simp only [ho, if_true]; decide
    · simp only [ho, if_false]; decide

/-- C15 with the flag set: the alternate pair BFF (0x0102) is stored, scaled by
10, and the default pair BFC is not read. -/
theorem update_info_selects_capacity_pair_witness :
    (some_battery_update_info client0 some_battery_probe
      (regfile_bus regs_alternate)).2.1.full_charge_capacity = 2580 ∧
    reads_issued (some_battery_update_info client0 some_battery_probe
      (regfile_bus regs_alternate)).2.2 =
        [0xda, 0xc0, 0xca, 0xcb, 0xc8, 0xc9, 0xdb, 0xd6, 0xd7] := by
  have h := update_info_selects_capacity_pair client0 some_battery_probe
    (regfile_bus regs_alternate)
    1 0 0 0 0 0 1 2 1 (by decide) (by decide) (by decide) (by decide) (by decide)
    (by decide) (by decide) (by decide) (by decide) (by decide)
  refine ⟨by decide, ?_⟩
  rw [h.2]
  decide

/-! ## What each stage leaves alone -/

/-- The identity stage, whatever the outcome of its reads, writes only
`battery_present`, `unit_ma`, `basc`, the two design values and
`full_charge_capacity`; and `unit_ma`, `basc` are either both kept or set
together to (false, 10) or (true, 1). -/
theorem update_info_frame (client : i2c_client) (battery : some_battery) (bus : Bus) :
    (some_battery_update_info client battery bus).2.1.update_time = battery.update_time ∧
    (some_battery_update_info client battery bus).2.1.adapter_online = battery.adapter_online ∧
    (some_battery_update_info client battery bus).2.1.bat_status = battery.bat_status ∧
    (some_battery_update_info client battery bus).2.1.capacity_now = battery.capacity_now ∧
    (some_battery_update_info client battery bus).2.1.voltage_now = battery.voltage_now ∧
    (some_battery_update_info client battery bus).2.1.rate_now = battery.rate_now ∧
    (((some_battery_update_info client battery bus).2.1.unit_ma = battery.unit_ma ∧
        (some_battery_update_info client battery bus).2.1.basc = battery.basc) ∨
      ((some_battery_update_info client battery bus).2.1.unit_ma = false ∧
        (some_battery_update_info client battery bus).2.1.basc = 10) ∨
      ((some_battery_update_info client battery bus).2.1.unit_ma = true ∧
        (some_battery_update_info client battery bus).2.1.basc = 1)) := by
  unfold some_battery_update_info
  dsimp only
  repeat' split
  all_goals refine ⟨rfl, rfl, rfl, rfl, rfl, rfl, ?_⟩
  all_goals
    first
    | exact Or.inl ⟨rfl, rfl⟩
    | exact Or.inr (Or.inl ⟨by simp_all, rfl⟩)
    | exact Or.inr (Or.inr ⟨by simp_all, rfl⟩)

/-- The dynamic-status stage, whatever the outcome of its reads, writes only
`bat_status`, `capacity_now`, `voltage_now` and `rate_now`. -/
theorem update_status_frame (client : i2c_client) (battery : some_battery) (bus : Bus) :
    (some_battery_update_status client battery bus).2.1.update_time = battery.update_time ∧
    (some_battery_update_status client battery bus).2.1.adapter_online
      = battery.adapter_online ∧
    (some_battery_update_status client battery bus).2.1.unit_ma = battery.unit_ma ∧
    (some_battery_update_status client battery bus).2.1.basc = battery.basc ∧
    (some_battery_update_status client battery bus).2.1.battery_present
      = battery.battery_present ∧
    (some_battery_update_status client battery bus).2.1.design_capacity
      = battery.design_capacity ∧
    (some_battery_update_status client battery bus).2.1.design_voltage
      = battery.design_voltage ∧
    (some_battery_update_status client battery bus).2.1.full_charge_capacity
      = battery.full_charge_capacity := by
  unfold some_battery_update_status
  dsimp only
  repeat' split
  all_goals exact ⟨rfl, rfl, rfl, rfl, rfl, rfl, rfl, rfl⟩

/-- The adapter stage: one read of ADPT; `adapter_online` becomes bit 7 of the
byte if the read succeeds and nothing is written if it fails. -/
theorem update_adapter_result (client : i2c_client) (battery : some_battery) (bus : Bus) :
    some_battery_update_adapter client battery bus =
      (if (some_battery_read client bus ADPT).1 < 0 then
         ((some_battery_read client bus ADPT).1, battery, (some_battery_read client bus ADPT).2)
       else
         (0,
          { battery with
            adapter_online := decide ((some_battery_read client bus ADPT).1 / 128 % 2 = 1) },
          (some_battery_read client bus ADPT).2)) := by
  unfold some_battery_update_adapter
  simp only [int_test_bit_seven]

/-- The adapter stage writes no field other than `adapter_online`. -/
theorem update_adapter_frame (client : i2c_client) (battery : some_battery) (bus : Bus) :
    (some_battery_update_adapter client battery bus).2.1 =
      { battery with
        adapter_online := (some_battery_update_adapter client battery bus).2.1.adapter_online } := by
  rw [update_adapter_result]
  split_ifs <;> rfl

/-- The identity stage when the presence read fails: the error is returned and
nothing is written, `battery_present` included. -/
theorem update_info_read_fails (client : i2c_client) (battery : some_battery) (bus : Bus)
    (h : (some_battery_read client bus 0xda).1 < 0) :
    some_battery_update_info client battery bus =
      ((some_battery_read client bus 0xda).1, battery, (some_battery_read client bus 0xda).2) := by
  unfold some_battery_update_info
  rcases hr : some_battery_read client bus 0xda with ⟨v, w⟩
  rw [hr] at h
  dsimp only at h ⊢
  rw [if_pos h]

/-- The identity stage when the presence read succeeds with bit 0 clear:
`battery_present` is cleared and the stage stops. -/
theorem update_info_absent (client : i2c_client) (battery : some_battery) (bus : Bus)
    (h : 0 ≤ (some_battery_read client bus 0xda).1)
    (hbit : (some_battery_read client bus 0xda).1 % 2 = 0) :
    some_battery_update_info client battery bus =
      (0, { battery with battery_present := false }, (some_battery_read client bus 0xda).2) := by
  unfold some_battery_update_info
  rcases hr : some_battery_read client bus 0xda with ⟨v, w⟩
  rw [hr] at h hbit
  dsimp only at h hbit ⊢
  have hb : int_test_bit v 0 = false := by
    rw [int_test_bit_zero]; simp; omega
  rw [if_neg (not_lt.mpr h), hb]
  simp

/-- The dynamic-status stage with `battery_present` clear: no read, no write. -/
theorem update_status_absent (client : i2c_client) (battery : some_battery) (bus : Bus)
    (h : battery.battery_present = false) :
    some_battery_update_status client battery bus = (0, battery, bus) := by
  unfold some_battery_update_status
  rw [if_pos (by simp [h])]

/-! ## Failed reads -/

/-- C12, where the code departs from it.  Identity stage: the read of BFC0 fails
with -5, yet the stage returns 0 and then writes `full_charge_capacity`
(4294967246, from the error code; it was 0).  Dynamic-status stage: the read of
BAC0 fails with -5, yet the stage returns 0 and then writes `rate_now` (-50; it
was 0).  The reads of the capacity pair and of the rate pair are the only ones
whose result the code does not test. -/
theorem stages_write_after_failed_read :
    (some_battery_read client0
      (bus_after client0 (faulty_regfile_bus regs_design BFC0)
        [0xda, BAM0, BDC0, BDC1, BDV0, BDV1, ORRF]) BFC0).1 = -5 ∧
    some_battery_probe.full_charge_capacity = 0 ∧
    (some_battery_update_info client0 some_battery_probe
      (faulty_regfile_bus regs_design BFC0)).1 = 0 ∧
    (some_battery_update_info client0 some_battery_probe
      (faulty_regfile_bus regs_design BFC0)).2.1.full_charge_capacity = 4294967246 ∧
    (some_battery_read client0
      (bus_after client0 (faulty_regfile_bus regs_charging BAC0)
        [BST0, BRC0, BRC1, BPV0, BPV1]) BAC0).1 = -5 ∧
    (some_battery_update_status client0 { some_battery_probe with basc := 10 }
      (faulty_regfile_bus regs_charging BAC0)).1 = 0 ∧
    (some_battery_update_status client0 { some_battery_probe with basc := 10 }
      (faulty_regfile_bus regs_charging BAC0)).2.1.rate_now = -50 := by
  decide

/-! ## Presence and the dynamic-status stage -/

/-- C13, as stated, fails: the presence read fails with -5 while
`battery_present` is still true from before (here the state the probe creates);
the dynamic-status stage then reads its seven registers and overwrites
`bat_status` (0 before, 2 after) and `voltage_now` (0 before, 64 after). -/
theorem status_stage_runs_after_failed_presence_read :
    (some_battery_read client0 (faulty_regfile_bus regs_charging 0xda) 0xda).1 = -5 ∧
    some_battery_probe.bat_status = 0 ∧ some_battery_probe.voltage_now = 0 ∧
    (some_battery_update client0 250 1000 1030 some_battery_probe
      (faulty_regfile_bus regs_charging 0xda)).2.1.bat_status = 2 ∧
    (some_battery_update client0 250 1000 1030 some_battery_probe
      (faulty_regfile_bus regs_charging 0xda)).2.1.voltage_now = 64 ∧
    reads_issued (some_battery_update client0 250 1000 1030 some_battery_probe
      (faulty_regfile_bus regs_charging 0xda)).2.2 =
        [0xda, BST0, BRC0, BRC1, BPV0, BPV1, BAC0, BAC1, ADPT] := by
  decide

/-- C13, amended: when the identity stage leaves `battery_present` false, that
is when the presence read succeeds with bit 0 clear, or fails while
`battery_present` was already false, the dynamic-status stage returns 0, issues
no transfer and writes nothing, and `bat_status`, `capacity_now`, `voltage_now`
and `rate_now` have after the call of `some_battery_update` the values they had
before it. -/
theorem status_stage_skipped_when_absent (client : i2c_client) (HZ jiffies0 jiffies1 : Nat)
    (battery : some_battery) (bus : Bus)
    (h : ((some_battery_read client bus 0xda).1 < 0 ∧ battery.battery_present = false) ∨
      (0 ≤ (some_battery_read client bus 0xda).1 ∧
        (some_battery_read client bus 0xda).1 % 2 = 0)) :
    some_battery_update_status client (some_battery_update_info client battery bus).2.1
        (some_battery_update_info client battery bus).2.2 =
      (0, (some_battery_update_info client battery bus).2.1,
        (some_battery_update_info client battery bus).2.2) ∧
    (some_battery_update client HZ jiffies0 jiffies1 battery bus).2.1.bat_status
      = battery.bat_status ∧
    (some_battery_update client HZ jiffies0 jiffies1 battery bus).2.1.capacity_now
      = battery.capacity_now ∧
    (some_battery_update client HZ jiffies0 jiffies1 battery bus).2.1.voltage_now
      = battery.voltage_now ∧
    (some_battery_update client HZ jiffies0 jiffies1 battery bus).2.1.rate_now
      = battery.rate_now := by
  have habs : (some_battery_update_info client battery bus).2.1.battery_present = false := by
    rcases h with ⟨hf, hp⟩ | ⟨hs, hb⟩
    · rw [update_info_read_fails client battery bus hf]; exact hp
    · rw [update_info_absent client battery bus hs hb]
  have hst := update_status_absent client (some_battery_update_info client battery bus).2.1
    (some_battery_update_info client battery bus).2.2 habs
  have hfr := update_info_frame client battery bus
  refine ⟨hst, ?_⟩
  rw [some_battery_update_cases]
  split_ifs with hc
  · exact ⟨rfl, rfl, rfl, rfl⟩
  · rw [hst]
    dsimp only
    rw [update_adapter_frame]
    exact ⟨hfr.2.2.1, hfr.2.2.2.1, hfr.2.2.2.2.1, hfr.2.2.2.2.2.1⟩

/-- C13, amended, at a battery reported absent (register 0xda reads 0): only
the presence register and ADPT are read. -/
theorem status_stage_skipped_when_absent_witness :
    (some_battery_update client0 250 1000 1030 { some_battery_probe with bat_status := 1 }
      (regfile_bus regs_charging)).2.1.bat_status = 1 ∧
    reads_issued (some_battery_update client0 250 1000 1030
      { some_battery_probe with bat_status := 1 } (regfile_bus regs_charging)).2.2 =
        [0xda, ADPT] :=
  ⟨(status_stage_skipped_when_absent client0 250 1000 1030
      { some_battery_probe with bat_status := 1 } (regfile_bus regs_charging)
      (Or.inr ⟨by decide, by decide⟩)).2.1,
   by decide⟩

/-! ## Best-effort refresh -/

/-- C14: when the cache has expired (`update_time` is 0, or at least `10 * HZ`
and fewer than 2^63 ticks have passed since it), whatever the outcome of the
reads of the identity and dynamic-status stages, `some_battery_update` returns
0, issues the read of ADPT as its last read (`w` is the bus those two stages
leave), sets `adapter_online` to bit 7 of the byte when that read succeeds and
leaves it as it was before the call when the read fails, and sets `update_time`
to the reading `jiffies1` of `jiffies`. -/
theorem some_battery_update_best_effort (client : i2c_client) (HZ jiffies0 jiffies1 : Nat)
    (battery : some_battery) (bus w : Bus)
    (hHZ : 10 * HZ < 2 ^ 63)
    (hexp : battery.update_time = 0 ∨
      (10 * HZ ≤ ticks_since jiffies0 battery.update_time ∧
        ticks_since jiffies0 battery.update_time < 2 ^ 63))
    (hw : w = (some_battery_update_status client
        (some_battery_update_info client battery bus).2.1
        (some_battery_update_info client battery bus).2.2).2.2) :
    (some_battery_update client HZ jiffies0 jiffies1 battery bus).1 = 0 ∧
    (some_battery_update client HZ jiffies0 jiffies1 battery bus).2.2 =
      (some_battery_read client w ADPT).2 ∧
    reads_issued (some_battery_update client HZ jiffies0 jiffies1 battery bus).2.2 =
      reads_issued w ++ [0xa3] ∧
    (some_battery_update client HZ jiffies0 jiffies1 battery bus).2.1.adapter_online =
      (if 0 ≤ (some_battery_read client w ADPT).1 then
         decide ((some_battery_read client w ADPT).1 / 128 % 2 = 1)
       else battery.adapter_online) ∧
    (some_battery_update client HZ jiffies0 jiffies1 battery bus).2.1.update_time =
      u64 jiffies1 := by
  have hnot : ¬(battery.update_time ≠ 0 ∧
      time_before (u64 jiffies0) (u64 (battery.update_time + SOME_CACHE_TIME HZ)) = true) := by
    rintro ⟨hnz, htb⟩
    rcases (time_before_window jiffies0 battery.update_time HZ hHZ).mp htb with h | h
    · rcases hexp with h0 | ⟨h1, _⟩
      · exact hnz h0
      · omega
    · rcases hexp with h0 | ⟨_, h2⟩
      · exact hnz h0
      · omega
  have hon : (some_battery_update_status client
      (some_battery_update_info client battery bus).2.1
      (some_battery_update_info client battery bus).2.2).2.1.adapter_online =
        battery.adapter_online := by
    rw [(update_status_frame client _ _).2.1, (update_info_frame client battery bus).2.1]
  have hu8 : u8 (ADPT : Nat) = 0xa3 := by decide
  rw [some_battery_update_cases, if_neg hnot, ← hw]
  dsimp only
  rw [update_adapter_result]
  refine ⟨rfl, ?_, ?_, ?_, ?_⟩
  · split_ifs <;> rfl
  · have hr := reads_issued_read client w ADPT
    rw [hu8] at hr
    split_ifs <;> exact hr
  · split_ifs with h1 h2 h2
    · exact absurd h2 (not_le.mpr h1)
    · exact hon
    · rfl
    · exact absurd (le_of_not_lt h1) h2
  · rfl

/-- C14 from the state the probe creates, with the presence read failing and
the adapter byte 0x80: the ADPT read is the last of nine reads, `adapter_online`
becomes true and `update_time` 1030. -/
theorem some_battery_update_best_effort_witness :
    (some_battery_update client0 250 1000 1030 some_battery_probe
      (faulty_regfile_bus regs_charging 0xda)).1 = 0 ∧
    (some_battery_update client0 250 1000 1030 some_battery_probe
      (faulty_regfile_bus regs_charging 0xda)).2.1.adapter_online = true ∧
    (some_battery_update client0 250 1000 1030 some_battery_probe
      (faulty_regfile_bus regs_charging 0xda)).2.1.update_time = 1030 := by
  have h := some_battery_update_best_effort client0 250 1000 1030 some_battery_probe
    (faulty_regfile_bus regs_charging 0xda) _ (by norm_num) (Or.inl rfl) rfl
  refine ⟨h.1, ?_, ?_⟩
  · rw [h.2.2.2.1]; decide
  · rw [h.2.2.2.2]; decide

/-! ## Scale factor -/

/-- One call of `some_battery_update` keeps the pair (`basc`, `unit_ma`) among
(0, false), (10, false) and (1, true). -/
theorem some_battery_update_scale (client : i2c_client) (HZ jiffies0 jiffies1 : Nat)
    (battery : some_battery) (bus : Bus)
    (h : (battery.basc = 0 ∧ battery.unit_ma = false) ∨
      (battery.basc = 10 ∧ battery.unit_ma = false) ∨
      (battery.basc = 1 ∧ battery.unit_ma = true)) :
    ((some_battery_update client HZ jiffies0 jiffies1 battery bus).2.1.basc = 0 ∧
        (some_battery_update client HZ jiffies0 jiffies1 battery bus).2.1.unit_ma = false) ∨
      ((some_battery_update client HZ jiffies0 jiffies1 battery bus).2.1.basc = 10 ∧
        (some_battery_update client HZ jiffies0 jiffies1 battery bus).2.1.unit_ma = false) ∨
      ((some_battery_update client HZ jiffies0 jiffies1 battery bus).2.1.basc = 1 ∧
        (some_battery_update client HZ jiffies0 jiffies1 battery bus).2.1.unit_ma = true) := by
  rw [some_battery_update_cases]
  split_ifs with hc
  · exact h
  · dsimp only
    rw [update_adapter_frame]
    dsimp only
    rw [(update_status_frame client _ _).2.2.1, (update_status_frame client _ _).2.2.2.1]
    rcases (update_info_frame client battery bus).2.2.2.2.2.2 with ⟨hu, hb⟩ | ⟨hu, hb⟩ | ⟨hu, hb⟩
    · rw [hu, hb]; exact h
    · exact Or.inr (Or.inl ⟨hb, hu⟩)
    · exact Or.inr (Or.inr ⟨hb, hu⟩)

theorem refresh_cycles_scale (client : i2c_client) (cycles : List (Nat × Nat × Nat × Bus))
    (battery : some_battery)
    (h : (battery.basc = 0 ∧ battery.unit_ma = false) ∨
      (battery.basc = 10 ∧ battery.unit_ma = false) ∨
      (battery.basc = 1 ∧ battery.unit_ma = true)) :
    ((refresh_cycles client battery cycles).basc = 0 ∧
        (refresh_cycles client battery cycles).unit_ma = false) ∨
      ((refresh_cycles client battery cycles).basc = 10 ∧
        (refresh_cycles client battery cycles).unit_ma = false) ∨
      ((refresh_cycles client battery cycles).basc = 1 ∧
        (refresh_cycles client battery cycles).unit_ma = true) := by
  induction cycles generalizing battery with
  | nil => exact h
  | cons c rest ih =>
    exact ih _ (some_battery_update_scale client c.1 c.2.1 c.2.2.1 battery c.2.2.2 h)

/-- C16, as stated, fails: the state the probe creates has `basc = 0` (with
`unit_ma` false), neither 1 nor 10, and a refresh cycle in which the read of
BAM0 fails leaves it 0 with the battery reported present. -/
theorem scale_factor_zero_reachable :
    (refresh_cycles client0 some_battery_probe []).basc = 0 ∧
    (refresh_cycles client0 some_battery_probe []).unit_ma = false ∧
    (refresh_cycles client0 some_battery_probe
      [(250, 1000, 1030, faulty_regfile_bus regs_design BAM0)]).basc = 0 ∧
    (refresh_cycles client0 some_battery_probe
      [(250, 1000, 1030, faulty_regfile_bus regs_design BAM0)]).unit_ma = false ∧
    (refresh_cycles client0 some_battery_probe
      [(250, 1000, 1030, faulty_regfile_bus regs_design BAM0)]).battery_present = true := by
  decide

/-- One call of `some_battery_update` keeps the pair (`basc`, `unit_ma`) among
(10, false) and (1, true) once it is there. -/
theorem some_battery_update_scale_set (client : i2c_client) (HZ jiffies0 jiffies1 : Nat)
    (battery : some_battery) (bus : Bus)
    (h : (battery.basc = 10 ∧ battery.unit_ma = false) ∨
      (battery.basc = 1 ∧ battery.unit_ma = true)) :
    ((some_battery_update client HZ jiffies0 jiffies1 battery bus).2.1.basc = 10 ∧
        (some_battery_update client HZ jiffies0 jiffies1 battery bus).2.1.unit_ma = false) ∨
      ((some_battery_update client HZ jiffies0 jiffies1 battery bus).2.1.basc = 1 ∧
        (some_battery_update client HZ jiffies0 jiffies1 battery bus).2.1.unit_ma = true) := by
  rw [some_battery_update_cases]
  split_ifs with hc
  · exact h
  · dsimp only
    rw [update_adapter_frame]
    dsimp only
    rw [(update_status_frame client _ _).2.2.1, (update_status_frame client _ _).2.2.2.1]
    rcases (update_info_frame client battery bus).2.2.2.2.2.2 with ⟨hu, hb⟩ | ⟨hu, hb⟩ | ⟨hu, hb⟩
    · rw [hu, hb]; exact h
    · exact Or.inl ⟨hb, hu⟩
    · exact Or.inr ⟨hb, hu⟩

theorem refresh_cycles_scale_set (client : i2c_client) (cycles : List (Nat × Nat × Nat × Bus))
    (battery : some_battery)
    (h : (battery.basc = 10 ∧ battery.unit_ma = false) ∨
      (battery.basc = 1 ∧ battery.unit_ma = true)) :
    ((refresh_cycles client battery cycles).basc = 10 ∧
        (refresh_cycles client battery cycles).unit_ma = false) ∨
      ((refresh_cycles client battery cycles).basc = 1 ∧
        (refresh_cycles client battery cycles).unit_ma = true) := by
  induction cycles generalizing battery with
  | nil => exact h
  | cons c rest ih =>
    exact ih _ (some_battery_update_scale_set client c.1 c.2.1 c.2.2.1 battery c.2.2.2 h)

theorem refresh_cycles_append (client : i2c_client) (battery : some_battery)
    (l1 l2 : List (Nat × Nat × Nat × Bus)) :
    refresh_cycles client battery (l1 ++ l2) =
      refresh_cycles client (refresh_cycles client battery l1) l2 := by
  simp [refresh_cycles, List.foldl_append]

/-- C16, amended: in every state reached from the state the probe creates by
any sequence of calls of `some_battery_update` over any buses, the pair
(`basc`, `unit_ma`) is (0, false), (10, false) or (1, true): `basc` is 0, 1 or
10, it is 1 exactly when `unit_ma` is true, and 10 or 0 when `unit_ma` is
false.  And once `basc` is not 0 in such a state, the pair is (10, false) or
(1, true) in every state reached from it by further calls (`more`). -/
theorem scale_factor_invariant (client : i2c_client)
    (cycles more : List (Nat × Nat × Nat × Bus)) :
    (((refresh_cycles client some_battery_probe cycles).basc = 0 ∧
        (refresh_cycles client some_battery_probe cycles).unit_ma = false) ∨
      ((refresh_cycles client some_battery_probe cycles).basc = 10 ∧
        (refresh_cycles client some_battery_probe cycles).unit_ma = false) ∨
      ((refresh_cycles client some_battery_probe cycles).basc = 1 ∧
        (refresh_cycles client some_battery_probe cycles).unit_ma = true)) ∧
    ((refresh_cycles client some_battery_probe cycles).basc ≠ 0 →
      (((refresh_cycles client some_battery_probe (cycles ++ more)).basc = 10 ∧
          (refresh_cycles client some_battery_probe (cycles ++ more)).unit_ma = false) ∨
        ((refresh_cycles client some_battery_probe (cycles ++ more)).basc = 1 ∧
          (refresh_cycles client some_battery_probe (cycles ++ more)).unit_ma = true))) := by
  have hI := refresh_cycles_scale client cycles some_battery_probe (Or.inl ⟨rfl, rfl⟩)
  refine ⟨hI, ?_⟩
  intro hnz
  rw [refresh_cycles_append]
  apply refresh_cycles_scale_set
  rcases hI with ⟨h0, _⟩ | h | h
  · exact absurd h0 hnz
  · exact Or.inl h
  · exact Or.inr h

/-- C16, amended, at one refresh from a register file with the unit flag clear
(`basc` becomes 10) followed by a refresh in which the read of BAM0 fails
(`basc` stays 10). -/
theorem scale_factor_invariant_witness :
    (refresh_cycles client0 some_battery_probe
      [(250, 1000, 1030, regfile_bus regs_design)]).basc = 10 ∧
    (((refresh_cycles client0 some_battery_probe
          ([(250, 1000, 1030, regfile_bus regs_design)] ++
            [(250, 5000, 5030, faulty_regfile_bus regs_design BAM0)])).basc = 10 ∧
        (refresh_cycles client0 some_battery_probe
          ([(250, 1000, 1030, regfile_bus regs_design)] ++
            [(250, 5000, 5030, faulty_regfile_bus regs_design BAM0)])).unit_ma = false) ∨
      ((refresh_cycles client0 some_battery_probe
          ([(250, 1000, 1030, regfile_bus regs_design)] ++
            [(250, 5000, 5030, faulty_regfile_bus regs_design BAM0)])).basc = 1 ∧
        (refresh_cycles client0 some_battery_probe
          ([(250, 1000, 1030, regfile_bus regs_design)] ++
            [(250, 5000, 5030, faulty_regfile_bus regs_design BAM0)])).unit_ma = true)) :=
  ⟨by decide,
   (scale_factor_invariant client0 [(250, 1000, 1030, regfile_bus regs_design)]
      [(250, 5000, 5030, faulty_regfile_bus regs_design BAM0)]).2 (by decide)⟩

/-! ## Reported charge and rate -/

theorem u32_lt (x : Int) : u32 x < 4294967296 := by
  unfold u32; omega

theorem s32_of_range (x : Int) (h1 : -2147483648 ≤ x) (h2 : x < 2147483648) : s32 x = x := by
  unfold s32
  rw [Int.emod_eq_of_lt (by omega) (by omega)]
  omega

theorem bus_after_append (client : i2c_client) (bus : Bus) (l1 l2 : List Nat) :
    bus_after client (bus_after client bus l1) l2 = bus_after client bus (l1 ++ l2) := by
  simp [bus_after, List.foldl_append]

theorem reads_succeed_bus_after (client : i2c_client) (bus : Bus) (l : List Nat)
    (h : reads_succeed client bus) : reads_succeed client (bus_after client bus l) := by
  intro addrs a
  rw [bus_after_append]
  exact h _ a

/-- A successful read returns a byte. -/
theorem read_byte (client : i2c_client) (bus : Bus) (a : Nat)
    (h : 0 ≤ (some_battery_read client bus a).1) :
    ∃ n : Nat, (some_battery_read client bus a).1 = (n : Int) ∧ n ≤ 255 := by
  have hr := some_battery_read_range client bus a
  refine ⟨(some_battery_read client bus a).1.toNat, (Int.toNat_of_nonneg h).symm, ?_⟩
  omega

/-- A capacity pair scaled by a scale factor 0, 1 or 10 is at most 655350. -/
theorem u32_scaled_pair_le (x : Nat) (s : Int) (hx : x < 65536)
    (hs : s = 0 ∨ s = 1 ∨ s = 10) : u32 (int_mul (x : Int) s) ≤ 655350 := by
  unfold int_mul
  rw [u32_s32]
  rcases hs with h | h | h
  · subst h; simp [u32]
  · subst h; rw [mul_one, u32_natCast]; omega
  · subst h
    have e : ((x : Int) * 10) = ((10 * x : Nat) : Int) := by push_cast; ring
    rw [e, u32_natCast, Nat.mod_eq_of_lt (by omega)]; omega

/-- A rate pair scaled by a scale factor 0, 1 or 10 in `int` arithmetic. -/
theorem int_mul_signext_range (v : Nat) (s : Int) (hs : s = 0 ∨ s = 1 ∨ s = 10) :
    -327680 ≤ int_mul (signext16 v) s ∧ int_mul (signext16 v) s ≤ 327670 := by
  have hr := signext16_range v
  unfold int_mul
  rw [s32_of_range _ (by rcases hs with h | h | h <;> subst h <;> omega)
    (by rcases hs with h | h | h <;> subst h <;> omega)]
  rcases hs with h | h | h <;> subst h <;> constructor <;> omega

/-- The conversion applied when `unit_ma` is set yields a value from 0 to
4294967. -/
theorem rate_conversion_range (r : Int) (v : Nat) :
    0 ≤ s32 ((u32 ((u32 r : Nat) * (v : Int)) / u32 1000 : Nat)) ∧
      s32 ((u32 ((u32 r : Nat) * (v : Int)) / u32 1000 : Nat)) ≤ 4294967 := by
  have h1000 : u32 1000 = 1000 := by decide
  have hlt := u32_lt ((u32 r : Nat) * (v : Int))
  have hq : u32 ((u32 r : Nat) * (v : Int)) / 1000 ≤ 4294967 := by omega
  rw [h1000, s32_of_lt _ (by omega)]
  constructor
  · positivity
  · exact_mod_cast hq

/-- The identity stage keeps the bounds when every read succeeds. -/
theorem update_info_bounded (client : i2c_client) (battery : some_battery) (bus : Bus)
    (hs : reads_succeed client bus) (hb : charge_fields_bounded battery) :
    charge_fields_bounded (some_battery_update_info client battery bus).2.1 ∧
      reads_succeed client (some_battery_update_info client battery bus).2.2 := by
  have h0 : 0 ≤ (some_battery_read client bus 0xda).1 := hs [] 0xda
  by_cases hbit : (some_battery_read client bus 0xda).1 % 2 = 0
  · rw [update_info_absent client battery bus h0 hbit]
    exact ⟨hb, reads_succeed_bus_after client bus [0xda] hs⟩
  · obtain ⟨pres, e0, -⟩ := read_byte client bus 0xda h0
    obtain ⟨bam, e1, -⟩ := read_byte client _ BAM0 (hs [0xda] BAM0)
    obtain ⟨bdc0, e2, l2⟩ := read_byte client _ BDC0 (hs [0xda, BAM0] BDC0)
    obtain ⟨bdc1, e3, l3⟩ := read_byte client _ BDC1 (hs [0xda, BAM0, BDC0] BDC1)
    obtain ⟨bdv0, e4, -⟩ := read_byte client _ BDV0 (hs [0xda, BAM0, BDC0, BDC1] BDV0)
    obtain ⟨bdv1, e5, -⟩ := read_byte client _ BDV1 (hs [0xda, BAM0, BDC0, BDC1, BDV0] BDV1)
    obtain ⟨orrf, e6, -⟩ := read_byte client _ ORRF
      (hs [0xda, BAM0, BDC0, BDC1, BDV0, BDV1] ORRF)
    obtain ⟨f0, e7, l7⟩ := read_byte client _ (if orrf % 2 = 1 then BFF0 else BFC0)
      (hs [0xda, BAM0, BDC0, BDC1, BDV0, BDV1, ORRF] (if orrf % 2 = 1 then BFF0 else BFC0))
    obtain ⟨f1, e8, l8⟩ := read_byte client _ (if orrf % 2 = 1 then BFF1 else BFC1)
      (hs [0xda, BAM0, BDC0, BDC1, BDV0, BDV1, ORRF, if orrf % 2 = 1 then BFF0 else BFC0]
        (if orrf % 2 = 1 then BFF1 else BFC1))
    have hodd : pres % 2 = 1 := by rw [e0] at hbit; omega
    rw [update_info_stores client battery bus pres bam bdc0 bdc1 bdv0 bdv1 orrf f0 f1
      e0 hodd e1 e2 e3 e4 e5 e6 e7 e8]
    refine ⟨?_, reads_succeed_bus_after client bus _ hs⟩
    have x1 := (assemble_bytes bdc0 bdc1 l2 l3).2
    have x2 := (assemble_bytes f0 f1 l7 l8).2
    obtain ⟨-, -, c3, c4, c5, -⟩ := hb
    unfold charge_fields_bounded
    dsimp only
    refine ⟨?_, ?_, c3, c4, c5, ?_⟩
    · split_ifs <;> omega
    · split_ifs <;> omega
    · split_ifs
      · exact Or.inr (Or.inl rfl)
      · exact Or.inr (Or.inr rfl)

/-- The dynamic-status stage keeps the bounds when every read succeeds. -/
theorem update_status_bounded (client : i2c_client) (battery : some_battery) (bus : Bus)
    (hs : reads_succeed client bus) (hb : charge_fields_bounded battery) :
    charge_fields_bounded (some_battery_update_status client battery bus).2.1 ∧
      reads_succeed client (some_battery_update_status client battery bus).2.2 := by
  by_cases hp : battery.battery_present = true
  · obtain ⟨st, e0, -⟩ := read_byte client bus BST0 (hs [] BST0)
    obtain ⟨brc0, e1, l1⟩ := read_byte client _ BRC0 (hs [BST0] BRC0)
    obtain ⟨brc1, e2, l2⟩ := read_byte client _ BRC1 (hs [BST0, BRC0] BRC1)
    obtain ⟨bpv0, e3, l3⟩ := read_byte client _ BPV0 (hs [BST0, BRC0, BRC1] BPV0)
    obtain ⟨bpv1, e4, l4⟩ := read_byte client _ BPV1 (hs [BST0, BRC0, BRC1, BPV0] BPV1)
    obtain ⟨bac0, e5, l5⟩ := read_byte client _ BAC0 (hs [BST0, BRC0, BRC1, BPV0, BPV1] BAC0)
    obtain ⟨bac1, e6, l6⟩ := read_byte client _ BAC1
      (hs [BST0, BRC0, BRC1, BPV0, BPV1, BAC0] BAC1)
    rw [update_status_of_reads client battery bus st brc0 brc1 bpv0 bpv1 bac0 bac1
      (bus_after client bus [BST0])
      (bus_after client bus [BST0, BRC0])
      (bus_after client bus [BST0, BRC0, BRC1])
      (bus_after client bus [BST0, BRC0, BRC1, BPV0])
      (bus_after client bus [BST0, BRC0, BRC1, BPV0, BPV1])
      (bus_after client bus [BST0, BRC0, BRC1, BPV0, BPV1, BAC0])
      (bus_after client bus [BST0, BRC0, BRC1, BPV0, BPV1, BAC0, BAC1])
      hp (Prod.ext e0 rfl) (Prod.ext e1 rfl) (Prod.ext e2 rfl) (Prod.ext e3 rfl)
      (Prod.ext e4 rfl) (Prod.ext e5 rfl) (Prod.ext e6 rfl)
      (Int.ofNat_nonneg _) (Int.ofNat_nonneg _) (Int.ofNat_nonneg _) (Int.ofNat_nonneg _)
      (Int.ofNat_nonneg _)]
    refine ⟨?_, reads_succeed_bus_after client bus _ hs⟩
    have arc := assemble_bytes brc0 brc1 l1 l2
    have aac := assemble_bytes bac0 bac1 l5 l6
    obtain ⟨c1, c2, -, -, -, c6⟩ := hb
    have hcap := u32_scaled_pair_le _ battery.basc arc.2 c6
    have hu : u32 (((bac1 <<< 8 ||| bac0 : Nat)) : Int) = bac1 <<< 8 ||| bac0 := by
      rw [u32_natCast]; omega
    have hrate := int_mul_signext_range (bac1 <<< 8 ||| bac0) battery.basc c6
    rw [arc.1, aac.1, hu, sign_extend32_15]
    unfold charge_fields_bounded
    split_ifs with hma
    · have hconv := rate_conversion_range (int_mul (signext16 (bac1 <<< 8 ||| bac0)) battery.basc)
        (u32 (int_or (int_shl (bpv1 : Int) 8) bpv0))
      exact ⟨c1, c2, hcap, le_trans (by norm_num) hconv.1, hconv.2, c6⟩
    · exact ⟨c1, c2, hcap, hrate.1, le_trans hrate.2 (by norm_num), c6⟩
  · have hp2 : battery.battery_present = false := by simpa using hp
    rw [update_status_absent client battery bus hp2]
    exact ⟨hb, hs⟩

/-- One call of `some_battery_update` keeps the bounds when every read
succeeds. -/
theorem some_battery_update_bounded (client : i2c_client) (HZ jiffies0 jiffies1 : Nat)
    (battery : some_battery) (bus : Bus)
    (hs : reads_succeed client bus) (hb : charge_fields_bounded battery) :
    charge_fields_bounded (some_battery_update client HZ jiffies0 jiffies1 battery bus).2.1 := by
  rw [some_battery_update_cases]
  split_ifs with hc
  · exact hb
  · have h1 := update_info_bounded client battery bus hs hb
    have h2 := update_status_bounded client _ _ h1.2 h1.1
    dsimp only
    rw [update_adapter_frame]
    exact h2.1

theorem refresh_cycles_bounded (client : i2c_client) (cycles : List (Nat × Nat × Nat × Bus))
    (battery : some_battery) (hc : ∀ c ∈ cycles, reads_succeed client c.2.2.2)
    (hb : charge_fields_bounded battery) :
    charge_fields_bounded (refresh_cycles client battery cycles) := by
  induction cycles generalizing battery with
  | nil => exact hb
  | cons c rest ih =>
    exact ih _ (fun d hd => hc d (List.mem_cons_of_mem c hd))
      (some_battery_update_bounded client c.1 c.2.1 c.2.2.1 battery c.2.2.2
        (hc c (List.mem_cons_self c rest)) hb)

theorem some_battery_read_device (client : i2c_client) (bus : Bus) (arg0 : Nat) :
    (some_battery_read client bus arg0).2.device = bus.device := by
  unfold some_battery_read i2c_transfer
  dsimp only
  split_ifs <;> rfl

theorem bus_after_device (client : i2c_client) (addrs : List Nat) (bus : Bus) :
    (bus_after client bus addrs).device = bus.device := by
  induction addrs generalizing bus with
  | nil => rfl
  | cons a rest ih =>
    have h : bus_after client bus (a :: rest) =
        bus_after client (some_battery_read client bus a).2 rest := rfl
    rw [h, ih, some_battery_read_device]

/-- Every read from a register file succeeds. -/
theorem regfile_reads_succeed (client : i2c_client) (regs : Nat → Nat) :
    reads_succeed client (regfile_bus regs) := by
  intro addrs a
  have hd : (bus_after client (regfile_bus regs) addrs).device = regfile_device regs :=
    bus_after_device client addrs (regfile_bus regs)
  rw [some_battery_read_succeeds_iff]
  unfold i2c_transfer
  simp [hd, regfile_device, List.reverse_append]

theorem probe_bounded : charge_fields_bounded some_battery_probe := by
  unfold charge_fields_bounded some_battery_probe
  decide

/-- A capacity of at most 655350 times 100 in `unsigned int`, stored in an `int`. -/
theorem charge_report (n : Nat) (h : n ≤ 655350) :
    s32 (u32 ((n : Int) * ((u32 100 : Nat) : Int))) = 100 * (n : Int) := by
  have h100 : u32 100 = 100 := by decide
  have e : (n : Int) * ((100 : Nat) : Int) = ((n * 100 : Nat) : Int) := by push_cast; rfl
  rw [h100, e, u32_natCast, Nat.mod_eq_of_lt (by omega), s32_of_lt _ (by omega)]
  push_cast
  ring

/-- A rate between -327680 and 4294967 times 100 in `int`. -/
theorem rate_report (r : Int) (h1 : -327680 ≤ r) (h2 : r ≤ 4294967) :
    int_mul r 100 = 100 * r := by
  unfold int_mul
  rw [s32_of_range _ (by omega) (by omega)]
  ring

/-- C17: for a state reached from the state the probe creates by calls of
`some_battery_update` on buses on which every read succeeds, and a query on
such a bus, the battery endpoint reports design charge, full charge and current
charge as exactly `100 * design_capacity`, `100 * full_charge_capacity` and
`100 * capacity_now`, and the current as exactly `100 * rate_now`, as
mathematical integers; the fields are those of the state `r.2.1` the cache
refresh of the query leaves.  (With the battery absent on entry the query is
refused with `-ENODEV`.) -/
theorem bat0_charge_reports_exact (client : i2c_client)
    (cycles : List (Nat × Nat × Nat × Bus)) (HZ jiffies0 jiffies1 : Nat)
    (battery : some_battery) (bus : Bus) (val : power_supply_propval)
    (r : Int × some_battery × Bus)
    (hc : ∀ c ∈ cycles, reads_succeed client c.2.2.2)
    (hbus : reads_succeed client bus)
    (hb : battery = refresh_cycles client some_battery_probe cycles)
    (hr : r = some_battery_update client HZ jiffies0 jiffies1 battery bus) :
    bat0_get_property client HZ jiffies0 jiffies1 battery bus .CHARGE_FULL_DESIGN val =
      (if battery.battery_present = true then
         (0, .intval (100 * (r.2.1.design_capacity : Int)), r.2.1, r.2.2)
       else (-ENODEV, val, battery, bus)) ∧
    bat0_get_property client HZ jiffies0 jiffies1 battery bus .CHARGE_FULL val =
      (if battery.battery_present = true then
         (0, .intval (100 * (r.2.1.full_charge_capacity : Int)), r.2.1, r.2.2)
       else (-ENODEV, val, battery, bus)) ∧
    bat0_get_property client HZ jiffies0 jiffies1 battery bus .CHARGE_NOW val =
      (if battery.battery_present = true then
         (0, .intval (100 * (r.2.1.capacity_now : Int)), r.2.1, r.2.2)
       else (-ENODEV, val, battery, bus)) ∧
    bat0_get_property client HZ jiffies0 jiffies1 battery bus .CURRENT_NOW val =
      (if battery.battery_present = true then
         (0, .intval (100 * r.2.1.rate_now), r.2.1, r.2.2)
       else (-ENODEV, val, battery, bus)) := by
  have hbd : charge_fields_bounded r.2.1 := by
    rw [hr, hb]
    exact some_battery_update_bounded client HZ jiffies0 jiffies1 _ bus hbus
      (refresh_cycles_bounded client cycles some_battery_probe hc probe_bounded)
  obtain ⟨c1, c2, c3, c4, c5, -⟩ := hbd
  unfold bat0_get_property some_battery_present
  by_cases hp : battery.battery_present = true
  · simp only [hp, if_true]
    rw [← hr]
    obtain ⟨rc, b, w⟩ := r
    dsimp only at c1 c2 c3 c4 c5 ⊢
    simp only [bat0_switch, charge_report _ c1, charge_report _ c2, charge_report _ c3,
      rate_report _ c4 c5]
    exact ⟨trivial, trivial, trivial, trivial⟩
  · simp [hp]

/-- C17 after one refresh from a register file (capacity pair 10, full pair
20, scale 10) and a query inside the cache window: the charge is reported as
100 * 100 = 10000. -/
theorem bat0_charge_reports_exact_witness :
    (bat0_get_property client0 250 1500 1530
        (refresh_cycles client0 some_battery_probe [(250, 1000, 1030, regfile_bus regs_half)])
        (regfile_bus regs_half) .CHARGE_NOW (.intval 0)).1 = 0 ∧
    (bat0_get_property client0 250 1500 1530
        (refresh_cycles client0 some_battery_probe [(250, 1000, 1030, regfile_bus regs_half)])
        (regfile_bus regs_half) .CHARGE_NOW (.intval 0)).2.1 = .intval 10000 := by
  have h := (bat0_charge_reports_exact client0 [(250, 1000, 1030, regfile_bus regs_half)]
    250 1500 1530 _ (regfile_bus regs_half) (.intval 0) _
    (by
      intro c hc
      rw [List.mem_singleton] at hc
      subst hc
      exact regfile_reads_succeed client0 regs_half)
    (regfile_reads_succeed client0 regs_half) rfl rfl).2.2.1
  rw [h]
  decide

end SomeBattery
